import Mathlib

/-!
The node coordinator `cryptonote::core` (src/cryptonote_core/cryptonote_core.cpp)

A shallow embedding of the coordinator: every member function of `core` that the
properties below talk about is a Lean function over an explicit coordinator state.

* The three owned subsystems (chain store, mempool, miner) and the peer-protocol handle
  are not part of this translation unit.  Their joint state is an arbitrary type `W`
  and each of their operations is a field of `Env W`.
* Every call the coordinator makes on a collaborator, every write of the checkpoint
  timestamps and every `graceful_exit` is appended to `core.trace`, in program order.
* `time(NULL)` is the oracle `Env.time`: its n-th call returns `E.time n`; the
  coordinator state counts the calls made so far.
* Log output and the admission lock `m_incoming_tx_lock` are not modelled (one call
  runs at a time).
-/

namespace crypto

/-- The 32-byte POD `crypto::hash`, compared bytewise. -/
structure hash where
  data : Nat
  deriving DecidableEq, Repr

/-- The 32-byte POD `crypto::key_image`, compared bytewise. -/
structure key_image where
  data : Nat
  deriving DecidableEq, Repr

end crypto

namespace cryptonote

/-- The byte string `blobdata` (a `std::string`). -/
abbrev blobdata := List UInt8

/-- The unsigned 64-bit modulus. -/
def U64 : Nat := 2 ^ 64

/-- Subtraction of `uint64_t` values: the operands are converted to 64 bits and the
difference wraps around. -/
def u64_sub (a b : Nat) : Nat := (a % U64 + U64 - b % U64) % U64

/-- The input alternative `txin_to_key`. -/
structure txin_to_key where
  amount : Nat
  key_offsets : List Nat
  k_image : crypto.key_image
  deriving DecidableEq, Repr

/-- The input variant `txin_v`: `txin_to_key`, or any other alternative of the variant. -/
inductive txin_v where
  | txin_to_key (v : txin_to_key)
  | other (which : Nat)
  deriving DecidableEq, Repr

/-- The target of an output, kept abstract. -/
structure txout_target_v where
  data : Nat
  deriving DecidableEq, Repr

/-- An output `tx_out`. -/
structure tx_out where
  amount : Nat
  target : txout_target_v
  deriving DecidableEq, Repr

/-- A transaction: inputs `vin`, outputs `vout`, and the remaining bytes. -/
structure transaction where
  vin : List txin_v
  vout : List tx_out
  extra : List UInt8
  deriving DecidableEq, Repr

/-- A block: the ids of its transactions, and everything else. -/
structure block where
  header : Nat
  tx_hashes : List crypto.hash
  deriving DecidableEq, Repr

/-- The out-parameter `tx_verification_context`. -/
structure tx_verification_context where
  m_verifivation_failed : Bool
  m_verifivation_impossible : Bool
  m_added_to_pool : Bool
  deriving DecidableEq, Repr

/-- The out-parameter `block_verification_context`. -/
structure block_verification_context where
  m_added_to_main_chain : Bool
  m_verifivation_failed : Bool
  m_already_exists : Bool
  deriving DecidableEq, Repr

/-- The value `boost::value_initialized<tx_verification_context>()`. -/
def tx_verification_context.value_initialized : tx_verification_context :=
  { m_verifivation_failed := false, m_verifivation_impossible := false,
    m_added_to_pool := false }

/-- The value `boost::value_initialized<block_verification_context>()`. -/
def block_verification_context.value_initialized : block_verification_context :=
  { m_added_to_main_chain := false, m_verifivation_failed := false,
    m_already_exists := false }

/-- The payload `block_complete_entry` of a relay notification. -/
structure block_complete_entry where
  block : blobdata
  txs : List blobdata
  deriving DecidableEq, Repr

/-- The request `NOTIFY_NEW_BLOCK::request`. -/
structure NOTIFY_NEW_BLOCK_request where
  b : block_complete_entry
  current_blockchain_height : Nat
  hop : Nat
  deriving DecidableEq, Repr

/-- One observable step of the coordinator: a call on a collaborator (with what it
returned), a write of one of the two checkpoint timestamps, or `graceful_exit`. -/
inductive Effect where
  | chain_update_checkpoints (path : String) (include_dns : Bool) (res : Bool)
  | chain_add_new_block (b : block) (bvc : block_verification_context) (res : Bool)
  | chain_get_current_blockchain_height (res : Nat)
  | chain_get_transactions (ids : List crypto.hash) (txs : List transaction)
      (missed : List crypto.hash)
  | chain_get_block_id_by_height (height : Nat) (res : crypto.hash)
  | chain_get_current_cumulative_blocksize_limit (res : Nat)
  | chain_have_tx (id : crypto.hash) (res : Bool)
  | chain_deinit
  | mempool_have_tx (id : crypto.hash) (res : Bool)
  | mempool_add_tx (tx : transaction) (id : crypto.hash) (blob_size : Nat)
      (keeped_by_block : Bool) (tvc : tx_verification_context) (res : Bool)
  | mempool_deinit
  | miner_pause
  | miner_resume
  | miner_on_block_chain_update
  | miner_stop
  | relay_block (arg : NOTIFY_NEW_BLOCK_request)
  | write_last_dns_checkpoints_update (t : Int)
  | write_last_json_checkpoints_update (t : Int)
  | graceful_exit
  deriving DecidableEq, Repr

/-- Everything the coordinator consumes and does not define itself: the clock, the
constants and serialization helpers of the format utilities, and the operations of the
chain store, the mempool, the miner and the peer-protocol handle on their state `W`.
Queries read `W`; the other operations return the new `W`. -/
structure Env (W : Type) where
  time : Nat → Int
  get_max_tx_size : Nat
  get_max_block_size : Nat
  CRYPTONOTE_COINBASE_BLOB_RESERVED_SIZE : Nat
  parse_and_validate_tx_from_blob : blobdata → Option (transaction × crypto.hash × crypto.hash)
  parse_and_validate_block_from_blob : blobdata → Option block
  get_object_blobsize : transaction → Nat
  check_inputs_types_supported : transaction → Bool
  check_outs_valid : transaction → Bool
  check_money_overflow : transaction → Bool
  get_inputs_money_amount : transaction → Bool × Nat
  get_outs_money_amount : transaction → Nat
  get_block_hash : block → crypto.hash
  get_block_height : block → Nat
  block_to_blob : block → blobdata
  t_serializable_object_to_blob : transaction → blobdata
  chain_update_checkpoints : String → Bool → W → Bool × W
  chain_add_new_block : block → block_verification_context → W →
    Bool × block_verification_context × W
  chain_get_current_blockchain_height : W → Nat
  chain_get_transactions : List crypto.hash → W → List transaction × List crypto.hash
  chain_get_block_id_by_height : Nat → W → crypto.hash
  chain_get_current_cumulative_blocksize_limit : W → Nat
  chain_have_tx : crypto.hash → W → Bool
  chain_deinit : W → W
  mempool_have_tx : crypto.hash → W → Bool
  mempool_add_tx : transaction → crypto.hash → Nat → tx_verification_context → Bool → W →
    Bool × tx_verification_context × W
  mempool_get_transactions_count : W → Nat
  mempool_deinit : W → W
  miner_pause : W → W
  miner_resume : W → W
  miner_on_block_chain_update : W → W
  miner_stop : W → W
  relay_block : NOTIFY_NEW_BLOCK_request → W → W

/-- The coordinator state: the collaborators, the members of `core` that the modelled
functions read or write, the number of clock readings so far and the effects so far. -/
structure core (W : Type) where
  world : W
  m_checkpoints_path : String
  m_last_dns_checkpoints_update : Int
  m_last_json_checkpoints_update : Int
  m_fast_exit : Bool
  time_calls : Nat
  trace : List Effect

variable {W : Type}

/-- Append one effect to the trace. -/
def core.emit (s : core W) (e : Effect) : core W :=
  { s with trace := s.trace ++ [e] }

/-- One call of `time(NULL)`. -/
def core.time (E : Env W) (s : core W) : Int × core W :=
  (E.time s.time_calls, { s with time_calls := s.time_calls + 1 })

/-- The call `core::graceful_exit`: raises SIGTERM; control returns to the caller. -/
def graceful_exit (s : core W) : core W :=
  s.emit Effect.graceful_exit

/-- The call `m_blockchain_storage.update_checkpoints(m_checkpoints_path, include_dns)`. -/
def core.chain_update_checkpoints (E : Env W) (s : core W) (include_dns : Bool) :
    Bool × core W :=
  let r := E.chain_update_checkpoints s.m_checkpoints_path include_dns s.world
  (r.1, ({ s with world := r.2 }).emit
    (Effect.chain_update_checkpoints s.m_checkpoints_path include_dns r.1))

/-- The assignment to `m_last_dns_checkpoints_update`. -/
def core.set_last_dns (s : core W) (t : Int) : core W :=
  ({ s with m_last_dns_checkpoints_update := t }).emit
    (Effect.write_last_dns_checkpoints_update t)

/-- The assignment to `m_last_json_checkpoints_update`. -/
def core.set_last_json (s : core W) (t : Int) : core W :=
  ({ s with m_last_json_checkpoints_update := t }).emit
    (Effect.write_last_json_checkpoints_update t)

/-- The tail of `core::update_checkpoints`: on a failed refresh, bring down the house. -/
def update_checkpoints_finish (res : Bool) (s : core W) : Bool × core W :=
  if !res then (res, graceful_exit s) else (res, s)

/-- The function `core::update_checkpoints`. -/
def update_checkpoints (E : Env W) (s : core W) : Bool × core W :=
  let c1 := s.time E
  if c1.1 - c1.2.m_last_dns_checkpoints_update ≥ 3600 then
    let r := c1.2.chain_update_checkpoints E true
    let c2 := r.2.time E
    let s2 := c2.2.set_last_dns c2.1
    let c3 := s2.time E
    let s3 := c3.2.set_last_json c3.1
    update_checkpoints_finish r.1 s3
  else
    let c2 := c1.2.time E
    if c2.1 - c2.2.m_last_json_checkpoints_update ≥ 600 then
      let r := c2.2.chain_update_checkpoints E false
      let c3 := r.2.time E
      let s3 := c3.2.set_last_json c3.1
      update_checkpoints_finish r.1 s3
    else
      update_checkpoints_finish true c2.2

/-! ## Transaction admission -/

/-- The loop of `core::check_tx_inputs_keyimages_diff`; `ki` is the set of key-images
inserted so far.  An input that is not a `txin_to_key` ends the loop with `false`
(CHECKED_GET_SPECIFIC_VARIANT), and so does a key-image that is already in the set. -/
def check_tx_inputs_keyimages_diff_loop : List txin_v → List crypto.key_image → Bool
  | [], _ => true
  | txin_v.txin_to_key tokey_in :: rest, ki =>
    if tokey_in.k_image ∈ ki then false
    else check_tx_inputs_keyimages_diff_loop rest (tokey_in.k_image :: ki)
  | txin_v.other _ :: _, _ => false

/-- The function `core::check_tx_inputs_keyimages_diff`. -/
def check_tx_inputs_keyimages_diff (tx : transaction) : Bool :=
  check_tx_inputs_keyimages_diff_loop tx.vin []

/-- The call `m_blockchain_storage.get_current_cumulative_blocksize_limit()`. -/
def core.chain_get_current_cumulative_blocksize_limit (E : Env W) (s : core W) :
    Nat × core W :=
  let r := E.chain_get_current_cumulative_blocksize_limit s.world
  (r, s.emit (Effect.chain_get_current_cumulative_blocksize_limit r))

/-- The condition `!keeped_by_block && get_object_blobsize(tx) >=
m_blockchain_storage.get_current_cumulative_blocksize_limit() -
CRYPTONOTE_COINBASE_BLOB_RESERVED_SIZE` of `core::check_tx_semantic`; the chain is asked
only when `keeped_by_block` is clear, and the difference is a `uint64_t`. -/
def tx_is_too_large (E : Env W) (s : core W) (tx : transaction) (keeped_by_block : Bool) :
    Bool × core W :=
  if keeped_by_block then (false, s)
  else
    let l := s.chain_get_current_cumulative_blocksize_limit E
    (decide (E.get_object_blobsize tx ≥
      u64_sub l.1 E.CRYPTONOTE_COINBASE_BLOB_RESERVED_SIZE), l.2)

/-- The function `core::check_tx_semantic`. -/
def check_tx_semantic (E : Env W) (s : core W) (tx : transaction) (keeped_by_block : Bool) :
    Bool × core W :=
  if tx.vin.length = 0 then (false, s)
  else if !E.check_inputs_types_supported tx then (false, s)
  else if !E.check_outs_valid tx then (false, s)
  else if !E.check_money_overflow tx then (false, s)
  else
    let amount_in := (E.get_inputs_money_amount tx).2 % U64
    let amount_out := E.get_outs_money_amount tx % U64
    if amount_in ≤ amount_out then (false, s)
    else
      let big := tx_is_too_large E s tx keeped_by_block
      if big.1 then (false, big.2)
      else if !check_tx_inputs_keyimages_diff tx then (false, big.2)
      else (true, big.2)

/-- The function `core::check_tx_syntax`. -/
def check_tx_syntax (_tx : transaction) : Bool := true

/-- The call `m_mempool.have_tx(tx_hash)`. -/
def core.mempool_have_tx (E : Env W) (s : core W) (id : crypto.hash) : Bool × core W :=
  let r := E.mempool_have_tx id s.world
  (r, s.emit (Effect.mempool_have_tx id r))

/-- The call `m_blockchain_storage.have_tx(tx_hash)`. -/
def core.chain_have_tx (E : Env W) (s : core W) (id : crypto.hash) : Bool × core W :=
  let r := E.chain_have_tx id s.world
  (r, s.emit (Effect.chain_have_tx id r))

/-- The call `m_mempool.add_tx(tx, tx_hash, blob_size, tvc, keeped_by_block)`. -/
def core.mempool_add_tx (E : Env W) (s : core W) (tx : transaction) (id : crypto.hash)
    (blob_size : Nat) (tvc : tx_verification_context) (keeped_by_block : Bool) :
    Bool × tx_verification_context × core W :=
  let r := E.mempool_add_tx tx id blob_size tvc keeped_by_block s.world
  (r.1, r.2.1, ({ s with world := r.2.2 }).emit
    (Effect.mempool_add_tx tx id blob_size keeped_by_block r.2.1 r.1))

/-- The six-argument `core::add_new_tx`. -/
def add_new_tx (E : Env W) (s : core W) (tx : transaction) (tx_hash : crypto.hash)
    (_tx_prefix_hash : crypto.hash) (blob_size : Nat) (tvc : tx_verification_context)
    (keeped_by_block : Bool) : Bool × tx_verification_context × core W :=
  let p := s.mempool_have_tx E tx_hash
  if p.1 then (true, tvc, p.2)
  else
    let c := p.2.chain_have_tx E tx_hash
    if c.1 then (true, tvc, c.2)
    else c.2.mempool_add_tx E tx tx_hash blob_size tvc keeped_by_block

/-- The function `core::parse_tx_from_blob`: the transaction, its hash and its prefix
hash, or nothing when the blob does not parse. -/
def parse_tx_from_blob (E : Env W) (blob : blobdata) :
    Option (transaction × crypto.hash × crypto.hash) :=
  E.parse_and_validate_tx_from_blob blob

/-- The function `core::handle_incoming_tx`; the incoming `tvc` is overwritten first. -/
def handle_incoming_tx (E : Env W) (s : core W) (tx_blob : blobdata)
    (_tvc : tx_verification_context) (keeped_by_block : Bool) :
    Bool × tx_verification_context × core W :=
  let tvc := tx_verification_context.value_initialized
  if tx_blob.length > E.get_max_tx_size then
    (false, { tvc with m_verifivation_failed := true }, s)
  else
    match parse_tx_from_blob E tx_blob with
    | none => (false, { tvc with m_verifivation_failed := true }, s)
    | some (tx, tx_hash, tx_prefixt_hash) =>
      if ! check_tx_syntax tx then
        (false, { tvc with m_verifivation_failed := true }, s)
      else
        let c := check_tx_semantic E s tx keeped_by_block
        if !c.1 then (false, { tvc with m_verifivation_failed := true }, c.2)
        else add_new_tx E c.2 tx tx_hash tx_prefixt_hash tx_blob.length tvc keeped_by_block

/-! ## Block admission -/

/-- The call `m_miner.pause()`. -/
def core.miner_pause (E : Env W) (s : core W) : core W :=
  ({ s with world := E.miner_pause s.world }).emit Effect.miner_pause

/-- The call `m_miner.resume()`. -/
def core.miner_resume (E : Env W) (s : core W) : core W :=
  ({ s with world := E.miner_resume s.world }).emit Effect.miner_resume

/-- The function `core::update_miner_block_template` (it returns true). -/
def update_miner_block_template (E : Env W) (s : core W) : core W :=
  ({ s with world := E.miner_on_block_chain_update s.world }).emit
    Effect.miner_on_block_chain_update

/-- The function `core::add_new_block`, that is `m_blockchain_storage.add_new_block`. -/
def add_new_block (E : Env W) (s : core W) (b : block) (bvc : block_verification_context) :
    Bool × block_verification_context × core W :=
  let r := E.chain_add_new_block b bvc s.world
  (r.1, r.2.1, ({ s with world := r.2.2 }).emit (Effect.chain_add_new_block b r.2.1 r.1))

/-- The call `m_blockchain_storage.get_current_blockchain_height()`. -/
def core.chain_get_current_blockchain_height (E : Env W) (s : core W) : Nat × core W :=
  let r := E.chain_get_current_blockchain_height s.world
  (r, s.emit (Effect.chain_get_current_blockchain_height r))

/-- The call `m_blockchain_storage.get_transactions(ids, txs, missed_txs)`. -/
def core.chain_get_transactions (E : Env W) (s : core W) (ids : List crypto.hash) :
    (List transaction × List crypto.hash) × core W :=
  let r := E.chain_get_transactions ids s.world
  (r, s.emit (Effect.chain_get_transactions ids r.1 r.2))

/-- The call `m_blockchain_storage.get_block_id_by_height(height)`. -/
def core.chain_get_block_id_by_height (E : Env W) (s : core W) (height : Nat) :
    crypto.hash × core W :=
  let r := E.chain_get_block_id_by_height height s.world
  (r, s.emit (Effect.chain_get_block_id_by_height height r))

/-- The call `m_pprotocol->relay_block(arg, exclude_context)`. -/
def core.relay_block (E : Env W) (s : core W) (arg : NOTIFY_NEW_BLOCK_request) : core W :=
  ({ s with world := E.relay_block arg s.world }).emit (Effect.relay_block arg)

/-- The condition `missed_txs.size() && m_blockchain_storage.get_block_id_by_height(
get_block_height(b)) != get_block_hash(b)` of `core::handle_block_found`; the chain is
asked only when some transaction is missed. -/
def reorganize_just_happened (E : Env W) (s : core W) (b : block)
    (missed_txs : List crypto.hash) : Bool × core W :=
  if missed_txs.length = 0 then (false, s)
  else
    let r := s.chain_get_block_id_by_height E (E.get_block_height b)
    (decide (r.1 ≠ E.get_block_hash b), r.2)

/-- The function `core::handle_block_found`. -/
def handle_block_found (E : Env W) (s : core W) (b : block) : Bool × core W :=
  let bvc0 := block_verification_context.value_initialized
  let s1 := s.miner_pause E
  let a := add_new_block E s1 b bvc0
  let bvc := a.2.1
  let s2 := update_miner_block_template E a.2.2
  let s3 := s2.miner_resume E
  if bvc.m_verifivation_failed then (false, s3)
  else if bvc.m_added_to_main_chain then
    let h := s3.chain_get_current_blockchain_height E
    let g := h.2.chain_get_transactions E b.tx_hashes
    let txs := g.1.1
    let missed_txs := g.1.2
    let c := reorganize_just_happened E g.2 b missed_txs
    if c.1 then (true, c.2)
    else if !(decide (txs.length = b.tx_hashes.length) && decide (missed_txs.length = 0)) then
      (false, c.2)
    else
      let arg : NOTIFY_NEW_BLOCK_request :=
        { b := { block := E.block_to_blob b,
                 txs := txs.map E.t_serializable_object_to_blob },
          current_blockchain_height := h.1, hop := 0 }
      (bvc.m_added_to_main_chain, c.2.relay_block E arg)
  else (bvc.m_added_to_main_chain, s3)

/-- The function `core::handle_incoming_block`; `bvc` is overwritten only after the
checkpoint refresh succeeded. -/
def handle_incoming_block (E : Env W) (s : core W) (block_blob : blobdata)
    (bvc : block_verification_context) (update_miner_blocktemplate : Bool) :
    Bool × block_verification_context × core W :=
  let u := update_checkpoints E s
  if !u.1 then (false, bvc, u.2)
  else
    let bvc := block_verification_context.value_initialized
    if block_blob.length > E.get_max_block_size then
      (false, { bvc with m_verifivation_failed := true }, u.2)
    else
      match E.parse_and_validate_block_from_blob block_blob with
      | none => (false, { bvc with m_verifivation_failed := true }, u.2)
      | some b =>
        let a := add_new_block E u.2 b bvc
        if update_miner_blocktemplate && a.2.1.m_added_to_main_chain then
          (true, a.2.1, update_miner_block_template E a.2.2)
        else (true, a.2.1, a.2.2)

/-! ## Teardown -/

/-- The function `core::deinit`. -/
def deinit (E : Env W) (s : core W) : Bool × core W :=
  let s1 := ({ s with world := E.miner_stop s.world }).emit Effect.miner_stop
  let s2 := ({ s1 with world := E.mempool_deinit s1.world }).emit Effect.mempool_deinit
  if !s2.m_fast_exit then
    (true, ({ s2 with world := E.chain_deinit s2.world }).emit Effect.chain_deinit)
  else (true, s2)

/-- The function `core::set_fast_exit`. -/
def set_fast_exit (s : core W) : core W :=
  { s with m_fast_exit := true }

/-- The function `core::get_fast_exit`. -/
def get_fast_exit (s : core W) : Bool :=
  s.m_fast_exit

/-! ## Helper checks of the format utilities, as the specification describes them -/

/-- Whether an input is a `txin_to_key`. -/
def is_txin_to_key : txin_v → Bool
  | txin_v.txin_to_key _ => true
  | txin_v.other _ => false

/-- The amount carried by an input (only `txin_to_key` carries one). -/
def input_amount : txin_v → Nat
  | txin_v.txin_to_key v => v.amount
  | txin_v.other _ => 0

/-- The key-images of the inputs, in input order. -/
def key_images : List txin_v → List crypto.key_image
  | [] => []
  | txin_v.txin_to_key v :: rest => v.k_image :: key_images rest
  | txin_v.other _ :: rest => key_images rest

/-- The exact (unbounded) sum of the input amounts. -/
def inputs_amount_exact (tx : transaction) : Nat :=
  (tx.vin.map input_amount).sum

/-- The exact (unbounded) sum of the output amounts. -/
def outputs_amount_exact (tx : transaction) : Nat :=
  (tx.vout.map tx_out.amount).sum

/-- Modelled from the spec: `check_inputs_types_supported` of the format utilities is not
part of this translation unit.  "Every input uses a supported input kind"; the supported
kind is `txin_to_key`, the one kind `check_tx_inputs_keyimages_diff` lets through. -/
def spec_check_inputs_types_supported (tx : transaction) : Bool :=
  tx.vin.all is_txin_to_key

/-- Modelled from the spec: `check_outs_valid` of the format utilities is not part of this
translation unit.  "All outputs are individually valid (positive amount, well-formed
target)"; what a well-formed target is, is the parameter `wf`. -/
def spec_check_outs_valid (wf : txout_target_v → Bool) (tx : transaction) : Bool :=
  tx.vout.all (fun o => decide (0 < o.amount) && wf o.target)

/-- Modelled from the spec: `check_money_overflow` of the format utilities is not part of
this translation unit.  "No arithmetic overflow when summing input or output amounts":
both exact sums fit in 64 bits. -/
def spec_check_money_overflow (tx : transaction) : Bool :=
  decide (inputs_amount_exact tx < U64) && decide (outputs_amount_exact tx < U64)

/-- Modelled from the spec: `get_inputs_money_amount` of the format utilities is not part
of this translation unit.  It leaves the sum of the input amounts in its `uint64_t`
out-parameter. -/
def spec_get_inputs_money_amount (tx : transaction) : Bool × Nat :=
  (true, inputs_amount_exact tx % U64)

/-- Modelled from the spec: `get_outs_money_amount` of the format utilities is not part of
this translation unit.  It returns the sum of the output amounts as a `uint64_t`. -/
def spec_get_outs_money_amount (tx : transaction) : Nat :=
  outputs_amount_exact tx % U64

/-- Modelled from the spec: an environment whose five helper checks are the ones the
specification describes; everything else is that of `E`. -/
def with_spec_helpers (wf : txout_target_v → Bool) (E : Env W) : Env W :=
  { E with
    check_inputs_types_supported := spec_check_inputs_types_supported
    check_outs_valid := spec_check_outs_valid wf
    check_money_overflow := spec_check_money_overflow
    get_inputs_money_amount := spec_get_inputs_money_amount
    get_outs_money_amount := spec_get_outs_money_amount }

/-! ## A small concrete environment -/

/-- The collaborators of the concrete environment: the ids held by the mempool. -/
structure SimWorld where
  pool : List crypto.hash
  deriving DecidableEq, Repr

/-- What the concrete collaborators answer. -/
structure SimCfg where
  clock : Nat → Int
  checkpoints_ok : Bool
  limit : Nat
  parse_tx : blobdata → Option (transaction × crypto.hash × crypto.hash)
  verdict : block_verification_context
  found_txs : List transaction
  missed_txs : List crypto.hash
  id_by_height : crypto.hash
  height : Nat

/-- A concrete environment: the mempool stores the ids it is given, the chain store
answers as `cfg` says, the helper checks are the ones the specification describes, and
the coinbase reserve is 600 bytes. -/
def simEnv (cfg : SimCfg) : Env SimWorld :=
  with_spec_helpers (fun _ => true)
  { time := cfg.clock
    get_max_tx_size := 4
    get_max_block_size := 4
    CRYPTONOTE_COINBASE_BLOB_RESERVED_SIZE := 600
    parse_and_validate_tx_from_blob := cfg.parse_tx
    parse_and_validate_block_from_blob := fun blob =>
      if blob.length = 0 then none else some { header := blob.length, tx_hashes := [] }
    get_object_blobsize := fun tx => tx.extra.length
    check_inputs_types_supported := fun _ => true
    check_outs_valid := fun _ => true
    check_money_overflow := fun _ => true
    get_inputs_money_amount := fun _ => (true, 0)
    get_outs_money_amount := fun _ => 0
    get_block_hash := fun b => { data := b.header }
    get_block_height := fun b => b.header
    block_to_blob := fun _ => []
    t_serializable_object_to_blob := fun tx => tx.extra
    chain_update_checkpoints := fun _ _ w => (cfg.checkpoints_ok, w)
    chain_add_new_block := fun _ _ w => (true, cfg.verdict, w)
    chain_get_current_blockchain_height := fun _ => cfg.height
    chain_get_transactions := fun _ _ => (cfg.found_txs, cfg.missed_txs)
    chain_get_block_id_by_height := fun _ _ => cfg.id_by_height
    chain_get_current_cumulative_blocksize_limit := fun _ => cfg.limit
    chain_have_tx := fun _ _ => false
    chain_deinit := fun w => w
    mempool_have_tx := fun id w => decide (id ∈ w.pool)
    mempool_add_tx := fun _ id _ tvc _ w =>
      (true, { tvc with m_added_to_pool := true }, { pool := id :: w.pool })
    mempool_get_transactions_count := fun w => w.pool.length
    mempool_deinit := fun w => w
    miner_pause := fun w => w
    miner_resume := fun w => w
    miner_on_block_chain_update := fun w => w
    miner_stop := fun w => w
    relay_block := fun _ w => w }

/-- A default configuration: clock at 0, refreshes succeed, a roomy size limit, no blob
parses, blocks go to the main chain with all their transactions found. -/
def simCfg : SimCfg :=
  { clock := fun _ => 0
    checkpoints_ok := true
    limit := 40000
    parse_tx := fun _ => none
    verdict := { m_added_to_main_chain := true, m_verifivation_failed := false,
                 m_already_exists := false }
    found_txs := []
    missed_txs := []
    id_by_height := { data := 0 }
    height := 7 }

/-- A fresh coordinator over the concrete collaborators: both timestamps zero, an empty
mempool, nothing done yet. -/
def simCore : core SimWorld :=
  { world := { pool := [] }
    m_checkpoints_path := ""
    m_last_dns_checkpoints_update := 0
    m_last_json_checkpoints_update := 0
    m_fast_exit := false
    time_calls := 0
    trace := [] }

/-- The seven conditions of semantic validity, with the size condition left open:
at least one input; every input a `txin_to_key`; every output with a positive amount and
a well-formed target; both exact sums within 64 bits; inputs strictly above outputs; the
size condition; pairwise distinct key-images. -/
def semantic_conditions (wf : txout_target_v → Bool) (t : transaction) (size_ok : Prop) :
    Prop :=
  t.vin ≠ [] ∧
  (∀ i ∈ t.vin, is_txin_to_key i = true) ∧
  (∀ o ∈ t.vout, 0 < o.amount ∧ wf o.target = true) ∧
  (inputs_amount_exact t < U64 ∧ outputs_amount_exact t < U64) ∧
  outputs_amount_exact t < inputs_amount_exact t ∧
  size_ok ∧
  (key_images t.vin).Nodup

/-- The size condition with the difference taken as an integer subtraction. -/
def size_ok_integer (E : Env W) (s : core W) (t : transaction) (keeped_by_block : Bool) :
    Prop :=
  keeped_by_block = true ∨
    (E.get_object_blobsize t : Int) <
      (E.chain_get_current_cumulative_blocksize_limit s.world : Int) -
        (E.CRYPTONOTE_COINBASE_BLOB_RESERVED_SIZE : Int)

/-- The size condition with the difference taken as a `uint64_t` subtraction. -/
def size_ok_u64 (E : Env W) (s : core W) (t : transaction) (keeped_by_block : Bool) :
    Prop :=
  keeped_by_block = true ∨
    E.get_object_blobsize t <
      u64_sub (E.chain_get_current_cumulative_blocksize_limit s.world)
        E.CRYPTONOTE_COINBASE_BLOB_RESERVED_SIZE

/-- A transaction with one input of 10 and one output of 9; the concrete environment
takes the length of `extra` as its serialized size. -/
def tx_fee_one : transaction :=
  { vin := [txin_v.txin_to_key { amount := 10, key_offsets := [], k_image := { data := 1 } }],
    vout := [{ amount := 9, target := { data := 0 } }], extra := [0, 0, 0] }

/-- The same transaction with 200 bytes of `extra`. -/
def tx_200_bytes : transaction :=
  { tx_fee_one with extra := List.replicate 200 0 }

/-- Whether an effect is a call of the mempool's `add_tx`. -/
def Effect.is_mempool_add_tx : Effect → Bool
  | Effect.mempool_add_tx _ _ _ _ _ _ => true
  | _ => false

/-- The outcome "success without insertion" of a call of `handle_incoming_tx` that
started in state `s` and ended with `r`: it returned true, the collaborators are in the
state they were in, the mempool holds as many transactions as before, and none of the
effects of the call is a call of the mempool's `add_tx`. -/
def success_without_insertion (E : Env W) (s : core W)
    (r : Bool × tx_verification_context × core W) : Prop :=
  r.1 = true ∧ r.2.2.world = s.world ∧
  E.mempool_get_transactions_count r.2.2.world = E.mempool_get_transactions_count s.world ∧
  ∃ d : List Effect, r.2.2.trace = s.trace ++ d ∧ ∀ e ∈ d, e.is_mempool_add_tx = false

/-- A configuration in which the one-byte blob `[1]` parses to `tx_fee_one`, with id 42. -/
def simCfgTx : SimCfg :=
  { simCfg with
    parse_tx := fun blob =>
      if blob = [1] then some (tx_fee_one, { data := 42 }, { data := 43 }) else none }

/-- The three consecutive clock readings starting with reading number `n` all return
`now`: the clock does not tick during one call of `update_checkpoints`. -/
def clock_reads (E : Env W) (n : Nat) (now : Int) : Prop :=
  ∀ i : Nat, i < 3 → E.time (n + i) = now

/-- The checkpoint refreshes in a trace, oldest first: `true` for a combined refresh
(`include_dns = true`), `false` for a JSON-only refresh. -/
def refreshes : List Effect → List Bool
  | [] => []
  | Effect.chain_update_checkpoints _ include_dns _ :: rest => include_dns :: refreshes rest
  | _ :: rest => refreshes rest

/-- The effects a failed refresh adds to the trace after the refresh itself. -/
def exit_effects (res : Bool) : List Effect :=
  if res then [] else [Effect.graceful_exit]

/-- Whether an effect is a write of one of the coordinator's checkpoint timestamps. -/
def Effect.is_timestamp_write : Effect → Bool
  | Effect.write_last_dns_checkpoints_update _ => true
  | Effect.write_last_json_checkpoints_update _ => true
  | _ => false

/-- Whether an effect is a call of the chain store's `add_new_block`. -/
def Effect.is_chain_add_new_block : Effect → Bool
  | Effect.chain_add_new_block _ _ _ => true
  | _ => false

/-- Whether an effect is a call of the miner's `on_block_chain_update`. -/
def Effect.is_miner_on_block_chain_update : Effect → Bool
  | Effect.miner_on_block_chain_update => true
  | _ => false

/-- A clock that reads `t0` three times, then `t0 + 601` three times, then `t0 + 3601`. -/
def cadence_clock (t0 : Int) (n : Nat) : Int :=
  if n < 3 then t0 else if n < 6 then t0 + 601 else t0 + 3601

/-- A configuration whose clock reads 3600 and whose checkpoint refreshes fail. -/
def simCfgFailing : SimCfg :=
  { simCfg with
    clock := fun _ => 3600
    checkpoints_ok := false }

/-- A configuration whose clock is `cadence_clock 3600`. -/
def simCfgCadence : SimCfg :=
  { simCfg with clock := cadence_clock 3600 }

/-- A configuration whose chain store reports a size limit of 100 bytes. -/
def simCfgSmallLimit : SimCfg :=
  { simCfg with limit := 100 }

/-- The verdict the chain store leaves in `bvc` when `handle_block_found` submits `b`. -/
def chain_verdict (E : Env W) (s : core W) (b : block) : block_verification_context :=
  (E.chain_add_new_block b block_verification_context.value_initialized
    (E.miner_pause s.world)).2.1

/-- The collaborators after the first four calls of `handle_block_found`: miner pause,
chain insert, template refresh, miner resume. -/
def world_after_insert (E : Env W) (s : core W) (b : block) : W :=
  E.miner_resume (E.miner_on_block_chain_update
    (E.chain_add_new_block b block_verification_context.value_initialized
      (E.miner_pause s.world)).2.2)

/-- The effects of the first four calls of `handle_block_found`. -/
def insert_effects (E : Env W) (s : core W) (b : block) : List Effect :=
  [Effect.miner_pause,
   Effect.chain_add_new_block b (chain_verdict E s b)
     (E.chain_add_new_block b block_verification_context.value_initialized
       (E.miner_pause s.world)).1,
   Effect.miner_on_block_chain_update,
   Effect.miner_resume]

/-- The notification `handle_block_found` builds for `b`: hop 0, the chain's current
height, the serialized block and the serialized transactions the chain returned. -/
def relay_notification (E : Env W) (s : core W) (b : block) : NOTIFY_NEW_BLOCK_request :=
  { b := { block := E.block_to_blob b,
           txs := (E.chain_get_transactions b.tx_hashes (world_after_insert E s b)).1.map
             E.t_serializable_object_to_blob },
    current_blockchain_height :=
      E.chain_get_current_blockchain_height (world_after_insert E s b),
    hop := 0 }

/-- The arguments of the `relay_block` calls in a trace, oldest first. -/
def relays : List Effect → List NOTIFY_NEW_BLOCK_request
  | [] => []
  | Effect.relay_block arg :: rest => arg :: relays rest
  | _ :: rest => relays rest

/-- A configuration whose chain store reports a block both as added to the main chain
and as having failed verification. -/
def simCfgBothFlags : SimCfg :=
  { simCfg with
    verdict := { m_added_to_main_chain := true, m_verifivation_failed := true,
                 m_already_exists := false } }

/-- A configuration in which a transaction lookup misses and the chain's block at the
height of the found block is another block. -/
def simCfgReorg : SimCfg :=
  { simCfg with
    missed_txs := [{ data := 5 }]
    id_by_height := { data := 99 } }

/-- A block with no transactions. -/
def simBlock : block :=
  { header := 3, tx_hashes := [] }

/-- A block that references one transaction. -/
def simBlockOneTx : block :=
  { header := 3, tx_hashes := [{ data := 5 }] }

/-! ## Further members of `core` and notions on traces -/

/-- The constructor `core::core` together with the static initializer of `m_fast_exit`:
both timestamps zero, an empty checkpoints path, the fast-exit flag false; `w` is the
state of the freshly constructed collaborators. -/
def core_ctor (w : W) : core W :=
  { world := w
    m_checkpoints_path := ""
    m_last_dns_checkpoints_update := 0
    m_last_json_checkpoints_update := 0
    m_fast_exit := false
    time_calls := 0
    trace := [] }

/-- The function `core::pause_mine`. -/
def pause_mine (E : Env W) (s : core W) : core W :=
  s.miner_pause E

/-- The function `core::resume_mine`. -/
def resume_mine (E : Env W) (s : core W) : core W :=
  s.miner_resume E

/-- The function `core::stop`. -/
def stop (s : core W) : core W :=
  graceful_exit s

/-- One call on the coordinator, with its arguments. -/
inductive core_op where
  | update_checkpoints
  | handle_incoming_tx (tx_blob : blobdata) (tvc : tx_verification_context)
      (keeped_by_block : Bool)
  | handle_block_found (b : block)
  | handle_incoming_block (block_blob : blobdata) (bvc : block_verification_context)
      (update_miner_blocktemplate : Bool)
  | add_new_block (b : block) (bvc : block_verification_context)
  | update_miner_block_template
  | pause_mine
  | resume_mine
  | stop
  | deinit
  | set_fast_exit
  | get_fast_exit

/-- The coordinator state after one call. -/
def run_op (E : Env W) (s : core W) : core_op → core W
  | core_op.update_checkpoints => (update_checkpoints E s).2
  | core_op.handle_incoming_tx tx_blob tvc keeped_by_block =>
    (handle_incoming_tx E s tx_blob tvc keeped_by_block).2.2
  | core_op.handle_block_found b => (handle_block_found E s b).2
  | core_op.handle_incoming_block block_blob bvc update_miner_blocktemplate =>
    (handle_incoming_block E s block_blob bvc update_miner_blocktemplate).2.2
  | core_op.add_new_block b bvc => (add_new_block E s b bvc).2.2
  | core_op.update_miner_block_template => update_miner_block_template E s
  | core_op.pause_mine => pause_mine E s
  | core_op.resume_mine => resume_mine E s
  | core_op.stop => stop s
  | core_op.deinit => (deinit E s).2
  | core_op.set_fast_exit => set_fast_exit s
  | core_op.get_fast_exit => s

/-- The coordinator state after a sequence of calls, first call first. -/
def run_ops (E : Env W) (s : core W) : List core_op → core W
  | [] => s
  | op :: rest => run_ops E (run_op E s op) rest

/-- Whether an effect is a call on the miner. -/
def Effect.is_miner_call : Effect → Bool
  | Effect.miner_pause => true
  | Effect.miner_resume => true
  | Effect.miner_on_block_chain_update => true
  | Effect.miner_stop => true
  | _ => false

/-- Whether every template refresh (`on_block_chain_update`) in a sequence of effects
happens while the miner is paused; `depth` is the number of pauses not yet matched by a
resume when the sequence starts. -/
def refresh_while_paused : Nat → List Effect → Bool
  | _, [] => true
  | depth, Effect.miner_pause :: rest => refresh_while_paused (depth + 1) rest
  | depth, Effect.miner_resume :: rest => refresh_while_paused (depth - 1) rest
  | depth, Effect.miner_on_block_chain_update :: rest =>
    decide (0 < depth) && refresh_while_paused depth rest
  | depth, _ :: rest => refresh_while_paused depth rest

/-- The verdict the chain store leaves in `bvc` when `handle_incoming_block` submits the
parsed block `b`, after the checkpoint refresh. -/
def incoming_verdict (E : Env W) (s : core W) (b : block) : block_verification_context :=
  (E.chain_add_new_block b block_verification_context.value_initialized
    (update_checkpoints E s).2.world).2.1

/-- The effects of `handle_incoming_block` after the checkpoint refresh, for a blob that
passes the size gate and parses to `b`: the chain insert, then the template refresh if
asked for and the block went to the main chain. -/
def incoming_effects (E : Env W) (s : core W) (b : block)
    (update_miner_blocktemplate : Bool) : List Effect :=
  Effect.chain_add_new_block b (incoming_verdict E s b)
      (E.chain_add_new_block b block_verification_context.value_initialized
        (update_checkpoints E s).2.world).1 ::
    (if update_miner_blocktemplate && (incoming_verdict E s b).m_added_to_main_chain then
      [Effect.miner_on_block_chain_update] else [])

/-- A configuration in which a transaction lookup misses while the chain's block at the
height of the found block is still the found block (`simBlockOneTx` has hash 3). -/
def simCfgMissing : SimCfg :=
  { simCfg with
    missed_txs := [{ data := 5 }]
    id_by_height := { data := 3 } }

/-- A configuration whose chain store rejects every block: not added to the main chain,
verification failed. -/
def simCfgRejected : SimCfg :=
  { simCfg with
    verdict := { m_added_to_main_chain := false, m_verifivation_failed := true,
                 m_already_exists := false } }

/-- A configuration whose chain store answers that it already has the block. -/
def simCfgAlreadyExists : SimCfg :=
  { simCfg with
    verdict := { m_added_to_main_chain := false, m_verifivation_failed := false,
                 m_already_exists := true } }

/-- A configuration like `simCfgTx` whose chain store reports a size limit of 603 bytes:
without `keeped_by_block` only transactions below 603 - 600 = 3 bytes pass the size
condition, and `tx_fee_one` has 3 bytes. -/
def simCfgTxTight : SimCfg :=
  { simCfgTx with limit := 603 }

/-- An environment like `simEnv simCfgTx` whose chain store reports a size limit of 40000
bytes while the mempool is empty and of 603 bytes afterwards. -/
def simEnvShrinkingLimit : Env SimWorld :=
  { simEnv simCfgTx with
    chain_get_current_cumulative_blocksize_limit := fun w =>
      if w.pool.length = 0 then 40000 else 603 }

/-! ## Lemmas on the key-image loop -/

theorem keyimages_loop_iff (vin : List txin_v) :
    ∀ ki : List crypto.key_image,
      check_tx_inputs_keyimages_diff_loop vin ki = true ↔
        (∀ i ∈ vin, is_txin_to_key i = true) ∧ (key_images vin).Nodup ∧
          ∀ k ∈ key_images vin, k ∉ ki := by
  induction vin with
  | nil => intro ki; simp [check_tx_inputs_keyimages_diff_loop, key_images]
  | cons x rest ih =>
    intro ki
    cases x with
    | other n => simp [check_tx_inputs_keyimages_diff_loop, is_txin_to_key]
    | txin_to_key v =>
      by_cases hk : v.k_image ∈ ki
      · simp [check_tx_inputs_keyimages_diff_loop, key_images, hk]
      · have hstep : check_tx_inputs_keyimages_diff_loop (txin_v.txin_to_key v :: rest) ki =
            check_tx_inputs_keyimages_diff_loop rest (v.k_image :: ki) := by
          simp [check_tx_inputs_keyimages_diff_loop, hk]
        rw [hstep, ih]
        constructor
        · rintro ⟨h1, h2, h3⟩
          refine ⟨?_, ?_, ?_⟩
          · intro i hi
            rcases List.mem_cons.1 hi with rfl | hi
            · rfl
            · exact h1 i hi
          · simp only [key_images, List.nodup_cons]
            exact ⟨fun hm => (h3 _ hm) (List.mem_cons_self _ _), h2⟩
          · intro k hkm hki
            simp only [key_images, List.mem_cons] at hkm
            rcases hkm with rfl | hkm
            · exact hk hki
            · exact h3 k hkm (List.mem_cons_of_mem _ hki)
        · rintro ⟨h1, h2, h3⟩
          simp only [key_images, List.nodup_cons] at h2
          refine ⟨fun i hi => h1 i (List.mem_cons_of_mem _ hi), h2.2, ?_⟩
          intro k hkm hki
          rcases List.mem_cons.1 hki with rfl | hki
          · exact h2.1 hkm
          · exact h3 k (by simp [key_images, hkm]) hki

theorem key_image_mem_of_getElem (vin : List txin_v) :
    ∀ (j : Nat) (v : txin_to_key), vin[j]? = some (txin_v.txin_to_key v) →
      v.k_image ∈ key_images vin := by
  induction vin with
  | nil => intro j v h; simp at h
  | cons x rest ih =>
    intro j v h
    cases j with
    | zero =>
      simp at h
      subst h
      simp [key_images]
    | succ j =>
      simp at h
      have hm := ih j v h
      cases x <;> simp [key_images, hm]

theorem key_images_not_nodup (vin : List txin_v) :
    ∀ (i j : Nat) (a b : txin_to_key), i < j →
      vin[i]? = some (txin_v.txin_to_key a) → vin[j]? = some (txin_v.txin_to_key b) →
      a.k_image = b.k_image → ¬ (key_images vin).Nodup := by
  induction vin with
  | nil => intro i j a b _ h; simp at h
  | cons x rest ih =>
    intro i j a b hij hi hj hab hnd
    cases j with
    | zero => omega
    | succ j =>
      simp at hj
      cases i with
      | zero =>
        simp at hi
        subst hi
        have hm := key_image_mem_of_getElem rest j b hj
        simp only [key_images, List.nodup_cons] at hnd
        exact hnd.1 (hab ▸ hm)
      | succ i =>
        simp at hi
        have hnd2 : (key_images rest).Nodup := by
          cases x with
          | other n => simpa [key_images] using hnd
          | txin_to_key v =>
            simp only [key_images, List.nodup_cons] at hnd
            exact hnd.2
        exact ih i j a b (by omega) hi hj hab hnd2

theorem check_tx_semantic_true_keyimages (E : Env W) (s : core W) (tx : transaction)
    (keeped_by_block : Bool) (h : (check_tx_semantic E s tx keeped_by_block).1 = true) :
    check_tx_inputs_keyimages_diff tx = true := by
  unfold check_tx_semantic at h
  dsimp only at h
  split_ifs at h
  all_goals simp_all

theorem check_tx_semantic_gates (E : Env W) (s : core W) (tx : transaction)
    (keeped_by_block : Bool) :
    (check_tx_semantic E s tx keeped_by_block).1 =
      (decide (tx.vin ≠ []) && E.check_inputs_types_supported tx && E.check_outs_valid tx &&
        E.check_money_overflow tx &&
        decide (E.get_outs_money_amount tx % U64 < (E.get_inputs_money_amount tx).2 % U64) &&
        (keeped_by_block || decide (E.get_object_blobsize tx <
          u64_sub (E.chain_get_current_cumulative_blocksize_limit s.world)
            E.CRYPTONOTE_COINBASE_BLOB_RESERVED_SIZE)) &&
        check_tx_inputs_keyimages_diff tx) := by
  unfold check_tx_semantic tx_is_too_large core.chain_get_current_cumulative_blocksize_limit
  dsimp only
  by_cases h1 : tx.vin = []
  · simp [h1]
  · have h1l : ¬ tx.vin.length = 0 := fun h => h1 (List.length_eq_zero.1 h)
    cases h2 : E.check_inputs_types_supported tx <;>
    cases h3 : E.check_outs_valid tx <;>
    cases h4 : E.check_money_overflow tx <;>
    cases h7 : check_tx_inputs_keyimages_diff tx <;>
    cases keeped_by_block <;>
    simp [h1, h1l] <;>
    split_ifs <;> simp_all

theorem exact_sums_of_no_overflow (tx : transaction)
    (h : spec_check_money_overflow tx = true) :
    inputs_amount_exact tx % U64 = inputs_amount_exact tx ∧
    outputs_amount_exact tx % U64 = outputs_amount_exact tx := by
  simp only [spec_check_money_overflow, Bool.and_eq_true, decide_eq_true_eq] at h
  exact ⟨Nat.mod_eq_of_lt h.1, Nat.mod_eq_of_lt h.2⟩

theorem check_tx_semantic_state (E : Env W) (s : core W) (tx : transaction)
    (keeped_by_block : Bool) :
    (check_tx_semantic E s tx keeped_by_block).2 = s ∨
    (check_tx_semantic E s tx keeped_by_block).2 =
      s.emit (Effect.chain_get_current_cumulative_blocksize_limit
        (E.chain_get_current_cumulative_blocksize_limit s.world)) := by
  unfold check_tx_semantic tx_is_too_large core.chain_get_current_cumulative_blocksize_limit
  dsimp only
  cases keeped_by_block <;> split_ifs <;> simp

theorem add_new_tx_already_known (E : Env W) (s s0 : core W) (tx : transaction)
    (id ph : crypto.hash) (n : Nat) (tvc : tx_verification_context) (keeped_by_block : Bool)
    (hw : s.world = s0.world)
    (hd : ∃ d : List Effect, s.trace = s0.trace ++ d ∧ ∀ e ∈ d, e.is_mempool_add_tx = false)
    (hknown : E.mempool_have_tx id s0.world = true ∨ E.chain_have_tx id s0.world = true) :
    success_without_insertion E s0 (add_new_tx E s tx id ph n tvc keeped_by_block) ∧
    (add_new_tx E s tx id ph n tvc keeped_by_block).2.1 = tvc := by
  obtain ⟨d, hd1, hd2⟩ := hd
  cases hp : E.mempool_have_tx id s0.world with
  | true =>
    have hval : add_new_tx E s tx id ph n tvc keeped_by_block =
        (true, tvc, s.emit (Effect.mempool_have_tx id true)) := by
      simp [add_new_tx, core.mempool_have_tx, hw, hp]
    rw [hval]
    refine ⟨⟨rfl, hw, by simp [core.emit, hw],
      d ++ [Effect.mempool_have_tx id true], ?_, ?_⟩, rfl⟩
    · simp [core.emit, hd1]
    · intro e he
      rcases List.mem_append.1 he with he | he
      · exact hd2 e he
      · simp at he; subst he; rfl
  | false =>
    have hc : E.chain_have_tx id s0.world = true := by
      rcases hknown with h | h
      · rw [hp] at h; exact Bool.noConfusion h
      · exact h
    have hval : add_new_tx E s tx id ph n tvc keeped_by_block =
        (true, tvc, (s.emit (Effect.mempool_have_tx id false)).emit
          (Effect.chain_have_tx id true)) := by
      simp [add_new_tx, core.mempool_have_tx, core.chain_have_tx, core.emit, hw, hp, hc]
    rw [hval]
    refine ⟨⟨rfl, hw, by simp [core.emit, hw],
      d ++ [Effect.mempool_have_tx id false, Effect.chain_have_tx id true], ?_, ?_⟩, rfl⟩
    · simp [core.emit, hd1]
    · intro e he
      rcases List.mem_append.1 he with he | he
      · exact hd2 e he
      · simp at he; rcases he with rfl | rfl <;> rfl

theorem handle_incoming_tx_already_known (E : Env W) (s : core W) (tx_blob : blobdata)
    (tvc : tx_verification_context) (keeped_by_block : Bool) (tx : transaction)
    (id ph : crypto.hash)
    (hsize : tx_blob.length ≤ E.get_max_tx_size)
    (hparse : E.parse_and_validate_tx_from_blob tx_blob = some (tx, id, ph))
    (hsem : (check_tx_semantic E s tx keeped_by_block).1 = true)
    (hknown : E.mempool_have_tx id s.world = true ∨ E.chain_have_tx id s.world = true) :
    success_without_insertion E s (handle_incoming_tx E s tx_blob tvc keeped_by_block) := by
  have hnot : ¬ tx_blob.length > E.get_max_tx_size := by omega
  unfold handle_incoming_tx
  simp only [hnot, if_false, parse_tx_from_blob, hparse, check_tx_syntax, Bool.not_true,
    Bool.false_eq_true, hsem]
  refine (add_new_tx_already_known E _ s tx id ph _ _ keeped_by_block ?_ ?_ hknown).1
  · rcases check_tx_semantic_state E s tx keeped_by_block with h | h <;> rw [h]
    rfl
  · rcases check_tx_semantic_state E s tx keeped_by_block with h | h <;> rw [h]
    · exact ⟨[], by simp, by simp⟩
    · refine ⟨[Effect.chain_get_current_cumulative_blocksize_limit
        (E.chain_get_current_cumulative_blocksize_limit s.world)], rfl, ?_⟩
      intro e he
      simp at he; subst he; rfl

theorem handle_incoming_tx_added_passed_size (E : Env W) (s : core W) (tx_blob : blobdata)
    (tvc : tx_verification_context) (keeped_by_block : Bool)
    (hadded : (handle_incoming_tx E s tx_blob tvc keeped_by_block).2.1.m_added_to_pool = true) :
    tx_blob.length ≤ E.get_max_tx_size := by
  by_contra hgt
  have hsize : tx_blob.length > E.get_max_tx_size := by omega
  simp [handle_incoming_tx, hsize, tx_verification_context.value_initialized] at hadded

theorem handle_incoming_tx_added_passed_semantic (E : Env W) (s : core W)
    (tx_blob : blobdata) (tvc : tx_verification_context) (keeped_by_block : Bool)
    (tx : transaction) (id ph : crypto.hash)
    (hparse : E.parse_and_validate_tx_from_blob tx_blob = some (tx, id, ph))
    (hadded : (handle_incoming_tx E s tx_blob tvc keeped_by_block).2.1.m_added_to_pool = true) :
    (check_tx_semantic E s tx keeped_by_block).1 = true := by
  cases hsem : (check_tx_semantic E s tx keeped_by_block).1 with
  | true => rfl
  | false =>
    exfalso
    unfold handle_incoming_tx at hadded
    by_cases hsize : tx_blob.length > E.get_max_tx_size
    · simp [hsize, tx_verification_context.value_initialized] at hadded
    · simp [hsize, parse_tx_from_blob, hparse, check_tx_syntax, hsem,
        tx_verification_context.value_initialized] at hadded

/-! ## Lemmas on the checkpoint scheduler -/

theorem update_checkpoints_combined (E : Env W) (s : core W)
    (h : E.time s.time_calls - s.m_last_dns_checkpoints_update ≥ 3600) :
    update_checkpoints E s =
      ((E.chain_update_checkpoints s.m_checkpoints_path true s.world).1,
        { world := (E.chain_update_checkpoints s.m_checkpoints_path true s.world).2
          m_checkpoints_path := s.m_checkpoints_path
          m_last_dns_checkpoints_update := E.time (s.time_calls + 1)
          m_last_json_checkpoints_update := E.time (s.time_calls + 2)
          m_fast_exit := s.m_fast_exit
          time_calls := s.time_calls + 3
          trace := s.trace ++
            (Effect.chain_update_checkpoints s.m_checkpoints_path true
                (E.chain_update_checkpoints s.m_checkpoints_path true s.world).1 ::
              Effect.write_last_dns_checkpoints_update (E.time (s.time_calls + 1)) ::
              Effect.write_last_json_checkpoints_update (E.time (s.time_calls + 2)) ::
              exit_effects (E.chain_update_checkpoints s.m_checkpoints_path true s.world).1) }) := by
  unfold update_checkpoints
  simp only [core.time, h, if_true, core.chain_update_checkpoints, core.set_last_dns,
    core.set_last_json, core.emit, update_checkpoints_finish, graceful_exit, exit_effects]
  cases (E.chain_update_checkpoints s.m_checkpoints_path true s.world).1 <;> simp

theorem update_checkpoints_json_only (E : Env W) (s : core W)
    (h1 : ¬ E.time s.time_calls - s.m_last_dns_checkpoints_update ≥ 3600)
    (h2 : E.time (s.time_calls + 1) - s.m_last_json_checkpoints_update ≥ 600) :
    update_checkpoints E s =
      ((E.chain_update_checkpoints s.m_checkpoints_path false s.world).1,
        { world := (E.chain_update_checkpoints s.m_checkpoints_path false s.world).2
          m_checkpoints_path := s.m_checkpoints_path
          m_last_dns_checkpoints_update := s.m_last_dns_checkpoints_update
          m_last_json_checkpoints_update := E.time (s.time_calls + 2)
          m_fast_exit := s.m_fast_exit
          time_calls := s.time_calls + 3
          trace := s.trace ++
            (Effect.chain_update_checkpoints s.m_checkpoints_path false
                (E.chain_update_checkpoints s.m_checkpoints_path false s.world).1 ::
              Effect.write_last_json_checkpoints_update (E.time (s.time_calls + 2)) ::
              exit_effects (E.chain_update_checkpoints s.m_checkpoints_path false s.world).1) }) := by
  unfold update_checkpoints
  simp only [core.time, h1, h2, if_true, if_false, core.chain_update_checkpoints,
    core.set_last_json, core.emit, update_checkpoints_finish, graceful_exit, exit_effects]
  cases (E.chain_update_checkpoints s.m_checkpoints_path false s.world).1 <;> simp

theorem update_checkpoints_idle (E : Env W) (s : core W)
    (h1 : ¬ E.time s.time_calls - s.m_last_dns_checkpoints_update ≥ 3600)
    (h2 : ¬ E.time (s.time_calls + 1) - s.m_last_json_checkpoints_update ≥ 600) :
    update_checkpoints E s = (true, { s with time_calls := s.time_calls + 2 }) := by
  unfold update_checkpoints
  simp [core.time, h1, h2, update_checkpoints_finish]

theorem refreshes_append (a b : List Effect) :
    refreshes (a ++ b) = refreshes a ++ refreshes b := by
  induction a with
  | nil => rfl
  | cons x rest ih => cases x <;> simp [refreshes, ih]

theorem refreshes_exit_effects (res : Bool) : refreshes (exit_effects res) = [] := by
  cases res <;> rfl

theorem update_checkpoints_failed (E : Env W) (s : core W)
    (hfail : (update_checkpoints E s).1 = false) :
    ∃ (include_dns : Bool) (ws : List Effect),
      (E.chain_update_checkpoints s.m_checkpoints_path include_dns s.world).1 = false ∧
      (update_checkpoints E s).2.world =
        (E.chain_update_checkpoints s.m_checkpoints_path include_dns s.world).2 ∧
      (update_checkpoints E s).2.trace = s.trace ++
        (Effect.chain_update_checkpoints s.m_checkpoints_path include_dns false ::
          (ws ++ [Effect.graceful_exit])) ∧
      (∀ e ∈ ws, e.is_timestamp_write = true) ∧ ws ≠ [] := by
  by_cases h1 : E.time s.time_calls - s.m_last_dns_checkpoints_update ≥ 3600
  · have e := update_checkpoints_combined E s h1
    rw [e] at hfail
    simp only at hfail
    rw [e, hfail]
    refine ⟨true, [Effect.write_last_dns_checkpoints_update (E.time (s.time_calls + 1)),
      Effect.write_last_json_checkpoints_update (E.time (s.time_calls + 2))],
      hfail, rfl, rfl, ?_, by simp⟩
    intro e he
    simp at he
    rcases he with rfl | rfl <;> rfl
  · by_cases h2 : E.time (s.time_calls + 1) - s.m_last_json_checkpoints_update ≥ 600
    · have e := update_checkpoints_json_only E s h1 h2
      rw [e] at hfail
      simp only at hfail
      rw [e, hfail]
      refine ⟨false, [Effect.write_last_json_checkpoints_update (E.time (s.time_calls + 2))],
        hfail, rfl, rfl, ?_, by simp⟩
      intro e he
      simp at he
      subst he
      rfl
    · rw [update_checkpoints_idle E s h1 h2] at hfail
      exact Bool.noConfusion hfail

theorem update_checkpoints_ignores_block_parsing (E : Env W) (s : core W)
    (p : blobdata → Option block) (m : Nat) :
    update_checkpoints
      { E with parse_and_validate_block_from_blob := p, get_max_block_size := m } s =
      update_checkpoints E s := rfl

/-! ## Lemmas on `handle_block_found` -/

theorem relays_append (a b : List Effect) : relays (a ++ b) = relays a ++ relays b := by
  induction a with
  | nil => rfl
  | cons x rest ih => cases x <;> simp [relays, ih]

theorem handle_block_found_relayed (E : Env W) (s : core W) (b : block)
    (hadded : (chain_verdict E s b).m_added_to_main_chain = true)
    (hok : (chain_verdict E s b).m_verifivation_failed = false)
    (hmissed : (E.chain_get_transactions b.tx_hashes (world_after_insert E s b)).2 = [])
    (hall : (E.chain_get_transactions b.tx_hashes (world_after_insert E s b)).1.length =
      b.tx_hashes.length) :
    handle_block_found E s b =
      (true,
        { s with
          world := E.relay_block (relay_notification E s b) (world_after_insert E s b)
          trace := s.trace ++ (insert_effects E s b ++
            [Effect.chain_get_current_blockchain_height
               (E.chain_get_current_blockchain_height (world_after_insert E s b)),
             Effect.chain_get_transactions b.tx_hashes
               (E.chain_get_transactions b.tx_hashes (world_after_insert E s b)).1 [],
             Effect.relay_block (relay_notification E s b)]) }) := by
  unfold chain_verdict at hadded hok
  unfold world_after_insert at hmissed hall
  unfold handle_block_found
  simp only [core.miner_pause, add_new_block, update_miner_block_template, core.miner_resume,
    core.chain_get_current_blockchain_height, core.chain_get_transactions,
    reorganize_just_happened, core.relay_block, core.emit, hadded, hok, hmissed, hall,
    relay_notification, insert_effects, chain_verdict, world_after_insert]
  simp

theorem handle_block_found_reorganized (E : Env W) (s : core W) (b : block)
    (hadded : (chain_verdict E s b).m_added_to_main_chain = true)
    (hok : (chain_verdict E s b).m_verifivation_failed = false)
    (hmissed : (E.chain_get_transactions b.tx_hashes (world_after_insert E s b)).2 ≠ [])
    (hid : E.chain_get_block_id_by_height (E.get_block_height b) (world_after_insert E s b) ≠
      E.get_block_hash b) :
    handle_block_found E s b =
      (true,
        { s with
          world := world_after_insert E s b
          trace := s.trace ++ (insert_effects E s b ++
            [Effect.chain_get_current_blockchain_height
               (E.chain_get_current_blockchain_height (world_after_insert E s b)),
             Effect.chain_get_transactions b.tx_hashes
               (E.chain_get_transactions b.tx_hashes (world_after_insert E s b)).1
               (E.chain_get_transactions b.tx_hashes (world_after_insert E s b)).2,
             Effect.chain_get_block_id_by_height (E.get_block_height b)
               (E.chain_get_block_id_by_height (E.get_block_height b)
                 (world_after_insert E s b))]) }) := by
  unfold chain_verdict at hadded hok
  unfold world_after_insert at hmissed hid
  have hlen : ¬ (E.chain_get_transactions b.tx_hashes
      (E.miner_resume (E.miner_on_block_chain_update
        (E.chain_add_new_block b block_verification_context.value_initialized
          (E.miner_pause s.world)).2.2))).2.length = 0 :=
    fun h => hmissed (List.length_eq_zero.1 h)
  unfold handle_block_found
  simp only [core.miner_pause, add_new_block, update_miner_block_template, core.miner_resume,
    core.chain_get_current_blockchain_height, core.chain_get_transactions,
    reorganize_just_happened, core.chain_get_block_id_by_height, core.emit, hadded, hok,
    hlen, hid, insert_effects, chain_verdict, world_after_insert]
  simp
  exact hid

/-! ## Properties -/

/-- Claim C1: a transaction blob longer than `get_max_tx_size()` is rejected whatever
`keeped_by_block` and the coordinator state are: `handle_incoming_tx` returns false, the
verification context has `m_verifivation_failed` set and the two other flags clear, and
the coordinator state is the one before the call, so the collaborators are untouched and
no call was made on the mempool (the trace did not grow). -/
theorem handle_incoming_tx_oversize_rejected (E : Env W) (s : core W) (tx_blob : blobdata)
    (tvc : tx_verification_context) (keeped_by_block : Bool)
    (hsize : tx_blob.length > E.get_max_tx_size) :
    (handle_incoming_tx E s tx_blob tvc keeped_by_block).1 = false ∧
    (handle_incoming_tx E s tx_blob tvc keeped_by_block).2.1 =
      { m_verifivation_failed := true, m_verifivation_impossible := false,
        m_added_to_pool := false } ∧
    (handle_incoming_tx E s tx_blob tvc keeped_by_block).2.2 = s ∧
    (handle_incoming_tx E s tx_blob tvc keeped_by_block).2.2.trace = s.trace ∧
    (handle_incoming_tx E s tx_blob tvc keeped_by_block).2.2.world = s.world := by
  simp [handle_incoming_tx, hsize, tx_verification_context.value_initialized]

theorem handle_incoming_tx_oversize_rejected_witness :
    ([1, 2, 3, 4, 5] : blobdata).length > (simEnv simCfg).get_max_tx_size ∧
    (handle_incoming_tx (simEnv simCfg) simCore [1, 2, 3, 4, 5]
      tx_verification_context.value_initialized false).1 = false :=
  ⟨by decide, (handle_incoming_tx_oversize_rejected (simEnv simCfg) simCore [1, 2, 3, 4, 5]
    tx_verification_context.value_initialized false (by decide)).1⟩

/-- Claim C2: a transaction in which two inputs at distinct positions are `txin_to_key`
inputs with the same key-image fails `check_tx_semantic(t, false)`, whatever the helper
checks answer, whatever the other inputs, the outputs and the amounts are, and whatever
size limit the chain store reports. -/
theorem check_tx_semantic_rejects_duplicate_key_image (E : Env W) (s : core W)
    (t : transaction) (i j : Nat) (a b : txin_to_key) (hij : i ≠ j)
    (hi : t.vin[i]? = some (txin_v.txin_to_key a))
    (hj : t.vin[j]? = some (txin_v.txin_to_key b))
    (hk : a.k_image = b.k_image) :
    (check_tx_semantic E s t false).1 = false := by
  cases hres : (check_tx_semantic E s t false).1 with
  | false => rfl
  | true =>
    exfalso
    have hloop := check_tx_semantic_true_keyimages E s t false hres
    have hnd := ((keyimages_loop_iff t.vin []).1 hloop).2.1
    rcases Nat.lt_or_gt_of_ne hij with hlt | hgt
    · exact key_images_not_nodup t.vin i j a b hlt hi hj hk hnd
    · exact key_images_not_nodup t.vin j i b a hgt hj hi hk.symm hnd

theorem check_tx_semantic_rejects_duplicate_key_image_witness :
    (0 : Nat) ≠ 1 ∧
    (check_tx_semantic (simEnv simCfg) simCore
      { vin := [txin_v.txin_to_key { amount := 10, key_offsets := [], k_image := { data := 1 } },
                txin_v.txin_to_key { amount := 5, key_offsets := [], k_image := { data := 1 } }],
        vout := [{ amount := 9, target := { data := 0 } }], extra := [] } false).1 = false :=
  ⟨by decide, check_tx_semantic_rejects_duplicate_key_image (simEnv simCfg) simCore
    { vin := [txin_v.txin_to_key { amount := 10, key_offsets := [], k_image := { data := 1 } },
              txin_v.txin_to_key { amount := 5, key_offsets := [], k_image := { data := 1 } }],
      vout := [{ amount := 9, target := { data := 0 } }], extra := [] }
    0 1 { amount := 10, key_offsets := [], k_image := { data := 1 } }
    { amount := 5, key_offsets := [], k_image := { data := 1 } }
    (by decide) rfl rfl rfl⟩

/-- Claim C3: with the helper checks the specification describes, a transaction whose
exact sum of input amounts is at most its exact sum of output amounts fails
`check_tx_semantic(t, false)`.  The sums are unbounded naturals, so a zero fee is
rejected, and so is a transaction whose 64-bit sums would compare the other way round
after wrapping: the overflow gate precedes the comparison. -/
theorem check_tx_semantic_rejects_no_fee (wf : txout_target_v → Bool) (E : Env W)
    (s : core W) (t : transaction)
    (hle : inputs_amount_exact t ≤ outputs_amount_exact t) :
    (check_tx_semantic (with_spec_helpers wf E) s t false).1 = false := by
  rw [check_tx_semantic_gates]
  cases hov : spec_check_money_overflow t with
  | false => simp [with_spec_helpers, hov]
  | true =>
    obtain ⟨hin, hout⟩ := exact_sums_of_no_overflow t hov
    have hnot : ¬ outputs_amount_exact t < inputs_amount_exact t := by omega
    simp [with_spec_helpers, spec_get_inputs_money_amount, spec_get_outs_money_amount,
      hin, hout, hnot]

theorem check_tx_semantic_rejects_no_fee_witness :
    inputs_amount_exact
      { vin := [txin_v.txin_to_key { amount := 10, key_offsets := [], k_image := { data := 1 } }],
        vout := [{ amount := 18446744073709551615, target := { data := 0 } },
                 { amount := 7, target := { data := 0 } }], extra := [] } ≤
    outputs_amount_exact
      { vin := [txin_v.txin_to_key { amount := 10, key_offsets := [], k_image := { data := 1 } }],
        vout := [{ amount := 18446744073709551615, target := { data := 0 } },
                 { amount := 7, target := { data := 0 } }], extra := [] } ∧
    (check_tx_semantic (with_spec_helpers (fun _ => true) (simEnv simCfg)) simCore
      { vin := [txin_v.txin_to_key { amount := 10, key_offsets := [], k_image := { data := 1 } }],
        vout := [{ amount := 18446744073709551615, target := { data := 0 } },
                 { amount := 7, target := { data := 0 } }], extra := [] } false).1 = false :=
  ⟨by decide, check_tx_semantic_rejects_no_fee (fun _ => true) (simEnv simCfg) simCore
    { vin := [txin_v.txin_to_key { amount := 10, key_offsets := [], k_image := { data := 1 } }],
      vout := [{ amount := 18446744073709551615, target := { data := 0 } },
               { amount := 7, target := { data := 0 } }], extra := [] } (by decide)⟩

set_option maxRecDepth 10000 in
/-- Claim C4, as stated, fails: when the chain store reports a size limit of 100 bytes,
below the 600 reserved bytes, `check_tx_semantic(t, false)` accepts a transaction of 200
bytes, although 200 is not less than the integer difference 100 - 600; so the value of
`check_tx_semantic` is not equivalent to the seven conditions with an integer difference. -/
theorem check_tx_semantic_integer_difference_fails :
    (simEnv simCfgSmallLimit).chain_get_current_cumulative_blocksize_limit simCore.world = 100 ∧
    (simEnv simCfgSmallLimit).CRYPTONOTE_COINBASE_BLOB_RESERVED_SIZE = 600 ∧
    (simEnv simCfgSmallLimit).get_object_blobsize tx_200_bytes = 200 ∧
    (check_tx_semantic (simEnv simCfgSmallLimit) simCore tx_200_bytes false).1 = true ∧
    ¬ size_ok_integer (simEnv simCfgSmallLimit) simCore tx_200_bytes false ∧
    ¬ ((check_tx_semantic (simEnv simCfgSmallLimit) simCore tx_200_bytes false).1 = true ↔
        semantic_conditions (fun _ => true) tx_200_bytes
          (size_ok_integer (simEnv simCfgSmallLimit) simCore tx_200_bytes false)) := by
  have hacc : (check_tx_semantic (simEnv simCfgSmallLimit) simCore tx_200_bytes
      false).1 = true := by decide
  have hno : ¬ size_ok_integer (simEnv simCfgSmallLimit) simCore tx_200_bytes false := by
    intro hsize
    rcases hsize with hk | hlt
    · exact Bool.noConfusion hk
    · revert hlt
      decide
  refine ⟨rfl, rfl, by decide, hacc, hno, fun h => ?_⟩
  obtain ⟨_, _, _, _, _, hsize, _⟩ := h.1 hacc
  exact hno hsize

/-- Claim C4, amended: with the helper checks the specification describes,
`check_tx_semantic(t, keeped_by_block)` is true exactly when t has an input, every
input is a `txin_to_key`, every output is valid, neither sum overflows, the inputs sum
to strictly more than the outputs, `keeped_by_block` is set or the serialized size is
strictly less than the limit minus the reserved size computed as a `uint64_t` (modulo
2^64), and the key-images are pairwise distinct. -/
theorem check_tx_semantic_iff (wf : txout_target_v → Bool) (E : Env W) (s : core W)
    (t : transaction) (keeped_by_block : Bool) :
    (check_tx_semantic (with_spec_helpers wf E) s t keeped_by_block).1 = true ↔
      semantic_conditions wf t (size_ok_u64 (with_spec_helpers wf E) s t keeped_by_block) := by
  rw [check_tx_semantic_gates]
  unfold semantic_conditions size_ok_u64
  simp only [Bool.and_eq_true, Bool.or_eq_true, decide_eq_true_eq]
  have hki := keyimages_loop_iff t.vin []
  unfold check_tx_inputs_keyimages_diff
  constructor
  · rintro ⟨⟨⟨⟨⟨⟨h1, h2⟩, h3⟩, h4⟩, h5⟩, h6⟩, h7⟩
    obtain ⟨hin, hout⟩ := exact_sums_of_no_overflow t h4
    refine ⟨h1, ?_, ?_, ?_, ?_, h6, (hki.1 h7).2.1⟩
    · simpa [with_spec_helpers, spec_check_inputs_types_supported] using h2
    · simpa [with_spec_helpers, spec_check_outs_valid] using h3
    · simpa [with_spec_helpers, spec_check_money_overflow] using h4
    · simpa [with_spec_helpers, spec_get_inputs_money_amount, spec_get_outs_money_amount,
        hin, hout] using h5
  · rintro ⟨h1, h2, h3, h4, h5, h6, h7⟩
    have hov : spec_check_money_overflow t = true := by
      simpa [spec_check_money_overflow] using h4
    obtain ⟨hin, hout⟩ := exact_sums_of_no_overflow t hov
    refine ⟨⟨⟨⟨⟨⟨h1, ?_⟩, ?_⟩, hov⟩, ?_⟩, h6⟩, ?_⟩
    · simpa [with_spec_helpers, spec_check_inputs_types_supported] using h2
    · simpa [with_spec_helpers, spec_check_outs_valid] using h3
    · simpa [with_spec_helpers, spec_get_inputs_money_amount, spec_get_outs_money_amount,
        hin, hout] using h5
    · exact hki.2 ⟨h2, h7, fun k _ hk => by simp at hk⟩

theorem handle_incoming_tx_semantic_rejected (E : Env W) (s : core W)
    (tx_blob : blobdata) (tvc : tx_verification_context) (keeped_by_block : Bool)
    (tx : transaction) (id ph : crypto.hash)
    (hsize : tx_blob.length ≤ E.get_max_tx_size)
    (hparse : E.parse_and_validate_tx_from_blob tx_blob = some (tx, id, ph))
    (hsem : (check_tx_semantic E s tx keeped_by_block).1 = false) :
    handle_incoming_tx E s tx_blob tvc keeped_by_block =
      (false,
        { m_verifivation_failed := true, m_verifivation_impossible := false,
          m_added_to_pool := false },
        (check_tx_semantic E s tx keeped_by_block).2) := by
  have hnot : ¬ tx_blob.length > E.get_max_tx_size := by omega
  unfold handle_incoming_tx
  simp [hnot, parse_tx_from_blob, hparse, check_tx_syntax, hsem,
    tx_verification_context.value_initialized]

theorem check_tx_semantic_world (E : Env W) (s : core W) (tx : transaction)
    (keeped_by_block : Bool) :
    (check_tx_semantic E s tx keeped_by_block).2.world = s.world := by
  rcases check_tx_semantic_state E s tx keeped_by_block with h | h <;> rw [h]
  rfl

set_option maxRecDepth 10000 in
/-- Claim C5, as stated, fails: a first submission can end with `m_added_to_pool` set,
the mempool then reporting `have_tx` for the id, and a second submission of the same
blob still return false with `m_verifivation_failed` set, because the semantic gate runs
before the duplicate test.  First, with a size limit of 603 bytes, the 3-byte
transaction is admitted with `keeped_by_block` set and rejected when resubmitted
without it.  Second, with the same flag (clear) in both submissions, it is rejected
when the chain store reports a smaller size limit at the second submission.  In both
runs the mempool holds one transaction after either call. -/
theorem handle_incoming_tx_resubmission_rejected :
    ((handle_incoming_tx (simEnv simCfgTxTight) simCore [1]
        tx_verification_context.value_initialized true).2.1.m_added_to_pool = true ∧
      (simEnv simCfgTxTight).mempool_have_tx { data := 42 }
        (handle_incoming_tx (simEnv simCfgTxTight) simCore [1]
          tx_verification_context.value_initialized true).2.2.world = true ∧
      (handle_incoming_tx (simEnv simCfgTxTight)
        (handle_incoming_tx (simEnv simCfgTxTight) simCore [1]
          tx_verification_context.value_initialized true).2.2 [1]
        tx_verification_context.value_initialized false).1 = false ∧
      (handle_incoming_tx (simEnv simCfgTxTight)
        (handle_incoming_tx (simEnv simCfgTxTight) simCore [1]
          tx_verification_context.value_initialized true).2.2 [1]
        tx_verification_context.value_initialized false).2.1.m_verifivation_failed = true ∧
      (simEnv simCfgTxTight).mempool_get_transactions_count
        (handle_incoming_tx (simEnv simCfgTxTight)
          (handle_incoming_tx (simEnv simCfgTxTight) simCore [1]
            tx_verification_context.value_initialized true).2.2 [1]
          tx_verification_context.value_initialized false).2.2.world = 1) ∧
    ((handle_incoming_tx simEnvShrinkingLimit simCore [1]
        tx_verification_context.value_initialized false).2.1.m_added_to_pool = true ∧
      simEnvShrinkingLimit.mempool_have_tx { data := 42 }
        (handle_incoming_tx simEnvShrinkingLimit simCore [1]
          tx_verification_context.value_initialized false).2.2.world = true ∧
      (handle_incoming_tx simEnvShrinkingLimit
        (handle_incoming_tx simEnvShrinkingLimit simCore [1]
          tx_verification_context.value_initialized false).2.2 [1]
        tx_verification_context.value_initialized false).1 = false ∧
      (handle_incoming_tx simEnvShrinkingLimit
        (handle_incoming_tx simEnvShrinkingLimit simCore [1]
          tx_verification_context.value_initialized false).2.2 [1]
        tx_verification_context.value_initialized false).2.1.m_verifivation_failed = true) := by
  decide

/-- Claim C5, amended: for a blob that parses to a transaction with id `id`:
(1) if the blob passes the size gate and the semantic gate and `id` is already in the
mempool or in the chain, `handle_incoming_tx` returns true, the collaborators keep their
state and no call of the mempool's `add_tx` is among its effects; (2) hence, if a first
submission ended with `m_added_to_pool` set and the mempool then reports `have_tx` for
`id`, a second submission of the same blob that again passes the semantic gate returns
true without insertion, and the mempool count after it equals the count after the
first; (3) it passes that gate again when the flag is the same and the chain store
reports the size limit it reported before; (4) a second submission that fails the
semantic gate returns false with `m_verifivation_failed` set, the collaborators
keeping their state. -/
theorem handle_incoming_tx_idempotent (E : Env W) (s : core W) (tx_blob : blobdata)
    (tvc : tx_verification_context) (keeped_by_block : Bool) (tx : transaction)
    (id ph : crypto.hash)
    (hparse : E.parse_and_validate_tx_from_blob tx_blob = some (tx, id, ph)) :
    (tx_blob.length ≤ E.get_max_tx_size →
      (check_tx_semantic E s tx keeped_by_block).1 = true →
      (E.mempool_have_tx id s.world = true ∨ E.chain_have_tx id s.world = true) →
      success_without_insertion E s (handle_incoming_tx E s tx_blob tvc keeped_by_block)) ∧
    (∀ (tvc2 : tx_verification_context) (keeped_by_block2 : Bool),
      (handle_incoming_tx E s tx_blob tvc keeped_by_block).2.1.m_added_to_pool = true →
      E.mempool_have_tx id (handle_incoming_tx E s tx_blob tvc keeped_by_block).2.2.world
        = true →
      (check_tx_semantic E (handle_incoming_tx E s tx_blob tvc keeped_by_block).2.2 tx
        keeped_by_block2).1 = true →
      success_without_insertion E (handle_incoming_tx E s tx_blob tvc keeped_by_block).2.2
        (handle_incoming_tx E (handle_incoming_tx E s tx_blob tvc keeped_by_block).2.2
          tx_blob tvc2 keeped_by_block2)) ∧
    (∀ tvc2 : tx_verification_context,
      (handle_incoming_tx E s tx_blob tvc keeped_by_block).2.1.m_added_to_pool = true →
      E.mempool_have_tx id (handle_incoming_tx E s tx_blob tvc keeped_by_block).2.2.world
        = true →
      E.chain_get_current_cumulative_blocksize_limit
          (handle_incoming_tx E s tx_blob tvc keeped_by_block).2.2.world =
        E.chain_get_current_cumulative_blocksize_limit s.world →
      success_without_insertion E (handle_incoming_tx E s tx_blob tvc keeped_by_block).2.2
        (handle_incoming_tx E (handle_incoming_tx E s tx_blob tvc keeped_by_block).2.2
          tx_blob tvc2 keeped_by_block)) ∧
    (∀ (tvc2 : tx_verification_context) (keeped_by_block2 : Bool),
      (handle_incoming_tx E s tx_blob tvc keeped_by_block).2.1.m_added_to_pool = true →
      (check_tx_semantic E (handle_incoming_tx E s tx_blob tvc keeped_by_block).2.2 tx
        keeped_by_block2).1 = false →
      (handle_incoming_tx E (handle_incoming_tx E s tx_blob tvc keeped_by_block).2.2
        tx_blob tvc2 keeped_by_block2).1 = false ∧
      (handle_incoming_tx E (handle_incoming_tx E s tx_blob tvc keeped_by_block).2.2
        tx_blob tvc2 keeped_by_block2).2.1 =
        { m_verifivation_failed := true, m_verifivation_impossible := false,
          m_added_to_pool := false } ∧
      (handle_incoming_tx E (handle_incoming_tx E s tx_blob tvc keeped_by_block).2.2
        tx_blob tvc2 keeped_by_block2).2.2.world =
        (handle_incoming_tx E s tx_blob tvc keeped_by_block).2.2.world) := by
  refine ⟨?_, ?_, ?_, ?_⟩
  · intro hsize hsem hknown
    exact handle_incoming_tx_already_known E s tx_blob tvc keeped_by_block tx id ph hsize
      hparse hsem hknown
  · intro tvc2 kbb2 hadded hhave hsem2
    have hsize := handle_incoming_tx_added_passed_size E s tx_blob tvc keeped_by_block hadded
    exact handle_incoming_tx_already_known E _ tx_blob tvc2 kbb2 tx id ph hsize hparse hsem2
      (Or.inl hhave)
  · intro tvc2 hadded hhave hlimit
    have hsize := handle_incoming_tx_added_passed_size E s tx_blob tvc keeped_by_block hadded
    have hsem := handle_incoming_tx_added_passed_semantic E s tx_blob tvc keeped_by_block
      tx id ph hparse hadded
    have hsem2 : (check_tx_semantic E (handle_incoming_tx E s tx_blob tvc keeped_by_block).2.2
        tx keeped_by_block).1 = true := by
      rw [check_tx_semantic_gates] at hsem ⊢
      rw [hlimit]
      exact hsem
    exact handle_incoming_tx_already_known E _ tx_blob tvc2 keeped_by_block tx id ph hsize
      hparse hsem2 (Or.inl hhave)
  · intro tvc2 kbb2 hadded hsem2
    have hsize := handle_incoming_tx_added_passed_size E s tx_blob tvc keeped_by_block hadded
    rw [handle_incoming_tx_semantic_rejected E _ tx_blob tvc2 kbb2 tx id ph hsize hparse hsem2]
    exact ⟨rfl, rfl, check_tx_semantic_world E _ tx kbb2⟩

theorem handle_incoming_tx_idempotent_witness :
    (simEnv simCfgTx).parse_and_validate_tx_from_blob [1] =
      some (tx_fee_one, { data := 42 }, { data := 43 }) ∧
    (handle_incoming_tx (simEnv simCfgTx) simCore [1]
      tx_verification_context.value_initialized false).2.1.m_added_to_pool = true ∧
    (simEnv simCfgTx).mempool_have_tx { data := 42 }
      (handle_incoming_tx (simEnv simCfgTx) simCore [1]
        tx_verification_context.value_initialized false).2.2.world = true ∧
    (check_tx_semantic (simEnv simCfgTx)
      (handle_incoming_tx (simEnv simCfgTx) simCore [1]
        tx_verification_context.value_initialized false).2.2 tx_fee_one false).1 = true ∧
    success_without_insertion (simEnv simCfgTx)
      (handle_incoming_tx (simEnv simCfgTx) simCore [1]
        tx_verification_context.value_initialized false).2.2
      (handle_incoming_tx (simEnv simCfgTx)
        (handle_incoming_tx (simEnv simCfgTx) simCore [1]
          tx_verification_context.value_initialized false).2.2 [1]
        tx_verification_context.value_initialized false) :=
  ⟨rfl, by decide, by decide, by decide,
    (handle_incoming_tx_idempotent (simEnv simCfgTx) simCore [1]
      tx_verification_context.value_initialized false tx_fee_one { data := 42 } { data := 43 }
      rfl).2.1 tx_verification_context.value_initialized false
      (by decide) (by decide) (by decide)⟩

/-- Claim C6, as stated, fails at an early clock: with both timestamps zero and the
clock reading 0 (any reading below 3600 does), neither interval has elapsed and the
first call of `update_checkpoints` performs no refresh at all. -/
theorem update_checkpoints_no_refresh_at_epoch :
    simCore.m_last_dns_checkpoints_update = 0 ∧
    simCore.m_last_json_checkpoints_update = 0 ∧
    clock_reads (simEnv simCfg) simCore.time_calls 0 ∧
    refreshes (update_checkpoints (simEnv simCfg) simCore).2.trace = [] ∧
    (update_checkpoints (simEnv simCfg) simCore).2.trace = [] := by
  refine ⟨rfl, rfl, ?_, by decide, by decide⟩
  intro i _
  rfl

/-- Claim C6, amended: let the clock read `now` throughout a call of
`update_checkpoints`.  If `now - last_dns >= 3600` the call performs one combined
refresh (`include_dns = true`) and sets both timestamps to `now`; otherwise, if
`now - last_json >= 600`, it performs one JSON-only refresh, sets the JSON timestamp to
`now` and keeps the DNS timestamp; otherwise it performs no refresh, keeps both
timestamps and returns true.  Consequently, from both timestamps zero and for a first
call at `now >= 3600`, calls at `now`, `now + 601` and `now + 3601` perform a combined,
a JSON-only and a combined refresh. -/
theorem update_checkpoints_contract_and_cadence (E : Env W) (s : core W) (now : Int) :
    (clock_reads E s.time_calls now →
      (now - s.m_last_dns_checkpoints_update ≥ 3600 →
        (update_checkpoints E s).1 =
          (E.chain_update_checkpoints s.m_checkpoints_path true s.world).1 ∧
        (update_checkpoints E s).2.world =
          (E.chain_update_checkpoints s.m_checkpoints_path true s.world).2 ∧
        (update_checkpoints E s).2.m_last_dns_checkpoints_update = now ∧
        (update_checkpoints E s).2.m_last_json_checkpoints_update = now ∧
        (update_checkpoints E s).2.trace = s.trace ++
          (Effect.chain_update_checkpoints s.m_checkpoints_path true
              (E.chain_update_checkpoints s.m_checkpoints_path true s.world).1 ::
            Effect.write_last_dns_checkpoints_update now ::
            Effect.write_last_json_checkpoints_update now ::
            exit_effects (E.chain_update_checkpoints s.m_checkpoints_path true s.world).1)) ∧
      (¬ now - s.m_last_dns_checkpoints_update ≥ 3600 →
        now - s.m_last_json_checkpoints_update ≥ 600 →
        (update_checkpoints E s).1 =
          (E.chain_update_checkpoints s.m_checkpoints_path false s.world).1 ∧
        (update_checkpoints E s).2.world =
          (E.chain_update_checkpoints s.m_checkpoints_path false s.world).2 ∧
        (update_checkpoints E s).2.m_last_dns_checkpoints_update =
          s.m_last_dns_checkpoints_update ∧
        (update_checkpoints E s).2.m_last_json_checkpoints_update = now ∧
        (update_checkpoints E s).2.trace = s.trace ++
          (Effect.chain_update_checkpoints s.m_checkpoints_path false
              (E.chain_update_checkpoints s.m_checkpoints_path false s.world).1 ::
            Effect.write_last_json_checkpoints_update now ::
            exit_effects (E.chain_update_checkpoints s.m_checkpoints_path false s.world).1)) ∧
      (¬ now - s.m_last_dns_checkpoints_update ≥ 3600 →
        ¬ now - s.m_last_json_checkpoints_update ≥ 600 →
        (update_checkpoints E s).1 = true ∧
        (update_checkpoints E s).2.world = s.world ∧
        (update_checkpoints E s).2.m_last_dns_checkpoints_update =
          s.m_last_dns_checkpoints_update ∧
        (update_checkpoints E s).2.m_last_json_checkpoints_update =
          s.m_last_json_checkpoints_update ∧
        (update_checkpoints E s).2.trace = s.trace)) ∧
    (3600 ≤ now →
      s.m_last_dns_checkpoints_update = 0 → s.m_last_json_checkpoints_update = 0 →
      clock_reads E s.time_calls now →
      clock_reads E (s.time_calls + 3) (now + 601) →
      clock_reads E (s.time_calls + 6) (now + 3601) →
      refreshes (update_checkpoints E s).2.trace = refreshes s.trace ++ [true] ∧
      refreshes (update_checkpoints E (update_checkpoints E s).2).2.trace =
        refreshes s.trace ++ [true, false] ∧
      refreshes (update_checkpoints E (update_checkpoints E
        (update_checkpoints E s).2).2).2.trace = refreshes s.trace ++ [true, false, true]) := by
  constructor
  · intro hc
    have t0 : E.time s.time_calls = now := hc 0 (by omega)
    have t1 : E.time (s.time_calls + 1) = now := hc 1 (by omega)
    have t2 : E.time (s.time_calls + 2) = now := hc 2 (by omega)
    refine ⟨fun h => ?_, fun h1 h2 => ?_, fun h1 h2 => ?_⟩
    · rw [update_checkpoints_combined E s (by rw [t0]; exact h), t1, t2]
      exact ⟨rfl, rfl, rfl, rfl, rfl⟩
    · rw [update_checkpoints_json_only E s (by rw [t0]; exact h1) (by rw [t1]; exact h2), t2]
      exact ⟨rfl, rfl, rfl, rfl, rfl⟩
    · rw [update_checkpoints_idle E s (by rw [t0]; exact h1) (by rw [t1]; exact h2)]
      exact ⟨rfl, rfl, rfl, rfl, rfl⟩
  · intro hnow hdns hjson hc1 hc2 hc3
    have a0 : E.time s.time_calls = now := hc1 0 (by omega)
    have a1 : E.time (s.time_calls + 1) = now := hc1 1 (by omega)
    have a2 : E.time (s.time_calls + 2) = now := hc1 2 (by omega)
    have b0 : E.time (s.time_calls + 3) = now + 601 := hc2 0 (by omega)
    have b1 : E.time (s.time_calls + 3 + 1) = now + 601 := hc2 1 (by omega)
    have c0 : E.time (s.time_calls + 3 + 3) = now + 3601 := hc3 0 (by omega)
    have e1 := update_checkpoints_combined E s (by rw [a0, hdns]; omega)
    rw [a1, a2] at e1
    have e2 := update_checkpoints_json_only E (update_checkpoints E s).2
      (by rw [e1]; simp only; rw [b0]; omega) (by rw [e1]; simp only; rw [b1]; omega)
    have e3 := update_checkpoints_combined E (update_checkpoints E (update_checkpoints E s).2).2
      (by rw [e2, e1]; simp only; rw [c0]; omega)
    refine ⟨?_, ?_, ?_⟩
    · rw [e1]
      simp [refreshes_append, refreshes, refreshes_exit_effects]
    · rw [e2, e1]
      simp [refreshes_append, refreshes, refreshes_exit_effects]
    · rw [e3, e2, e1]
      simp [refreshes_append, refreshes, refreshes_exit_effects]

theorem update_checkpoints_contract_and_cadence_witness :
    (3600 : Int) ≤ 3600 ∧
    clock_reads (simEnv simCfgCadence) simCore.time_calls 3600 ∧
    refreshes (update_checkpoints (simEnv simCfgCadence)
      (update_checkpoints (simEnv simCfgCadence)
        (update_checkpoints (simEnv simCfgCadence)
          simCore).2).2).2.trace = refreshes simCore.trace ++ [true, false, true] :=
  ⟨by decide, by unfold clock_reads; decide,
    ((update_checkpoints_contract_and_cadence (simEnv simCfgCadence) simCore 3600).2
      (by decide) rfl rfl (by unfold clock_reads; decide) (by unfold clock_reads; decide)
      (by unfold clock_reads; decide)).2.2⟩

/-- Claim C8: if the checkpoint refresh at the entry of `handle_incoming_block` fails,
then for every blob, every flag, every parser and every size limit the call returns
false, leaves `bvc` as it was and ends in the state `update_checkpoints` alone leaves
(so the blob is neither measured nor parsed); among its effects is `graceful_exit`, and
none of them is the chain's `add_new_block` or the miner's `on_block_chain_update`. -/
theorem handle_incoming_block_checkpoint_failure (E : Env W) (s : core W)
    (hfail : (update_checkpoints E s).1 = false) :
    (∀ (p : blobdata → Option block) (m : Nat) (block_blob : blobdata)
        (bvc : block_verification_context) (update_miner_blocktemplate : Bool),
      handle_incoming_block
        { E with parse_and_validate_block_from_blob := p, get_max_block_size := m }
        s block_blob bvc update_miner_blocktemplate =
        (false, bvc, (update_checkpoints E s).2)) ∧
    (∀ (block_blob : blobdata) (bvc : block_verification_context)
        (update_miner_blocktemplate : Bool),
      (handle_incoming_block E s block_blob bvc update_miner_blocktemplate).1 = false ∧
      ∃ d : List Effect,
        (handle_incoming_block E s block_blob bvc update_miner_blocktemplate).2.2.trace =
          s.trace ++ d ∧
        Effect.graceful_exit ∈ d ∧
        ∀ e ∈ d, e.is_chain_add_new_block = false ∧
          e.is_miner_on_block_chain_update = false) := by
  have hgen : ∀ (p : blobdata → Option block) (m : Nat) (block_blob : blobdata)
      (bvc : block_verification_context) (u : Bool),
      handle_incoming_block
        { E with parse_and_validate_block_from_blob := p, get_max_block_size := m }
        s block_blob bvc u = (false, bvc, (update_checkpoints E s).2) := by
    intro p m block_blob bvc u
    unfold handle_incoming_block
    simp only [update_checkpoints_ignores_block_parsing, hfail, Bool.not_false, if_true]
  refine ⟨hgen, fun block_blob bvc u => ?_⟩
  have hE := hgen E.parse_and_validate_block_from_blob E.get_max_block_size block_blob bvc u
  have hE2 : handle_incoming_block E s block_blob bvc u =
      (false, bvc, (update_checkpoints E s).2) := hE
  rw [hE2]
  obtain ⟨dns, ws, _, _, h3, h4, _⟩ := update_checkpoints_failed E s hfail
  refine ⟨rfl, _, h3, by simp, ?_⟩
  intro e he
  simp only [List.mem_cons, List.mem_append, List.not_mem_nil, or_false] at he
  rcases he with rfl | he | rfl
  · exact ⟨rfl, rfl⟩
  · have := h4 e he
    cases e <;> first | exact ⟨rfl, rfl⟩ | exact Bool.noConfusion this
  · exact ⟨rfl, rfl⟩

theorem handle_incoming_block_checkpoint_failure_witness :
    (update_checkpoints (simEnv simCfgFailing) simCore).1 = false ∧
    (handle_incoming_block (simEnv simCfgFailing) simCore [1, 2]
      block_verification_context.value_initialized true).1 = false :=
  ⟨by decide,
    ((handle_incoming_block_checkpoint_failure (simEnv simCfgFailing) simCore (by decide)).2
      [1, 2] block_verification_context.value_initialized true).1⟩

/-- Claim C9, as stated, fails when the chain store reports the block as added to the
main chain and also flags a verification failure: the guard on `m_verifivation_failed`
comes first, `handle_block_found` returns false and nothing is relayed, although no
referenced transaction is missing. -/
theorem handle_block_found_both_flags_no_relay :
    (chain_verdict (simEnv simCfgBothFlags) simCore simBlock).m_added_to_main_chain = true ∧
    ((simEnv simCfgBothFlags).chain_get_transactions simBlock.tx_hashes
      (world_after_insert (simEnv simCfgBothFlags) simCore simBlock)).2 = [] ∧
    ((simEnv simCfgBothFlags).chain_get_transactions simBlock.tx_hashes
      (world_after_insert (simEnv simCfgBothFlags) simCore simBlock)).1.length =
      simBlock.tx_hashes.length ∧
    (handle_block_found (simEnv simCfgBothFlags) simCore simBlock).1 = false ∧
    relays (handle_block_found (simEnv simCfgBothFlags) simCore simBlock).2.trace = [] := by
  decide

/-- Claim C9, amended: when the chain store reports the block as added to the main
chain without a verification failure, and returns every referenced transaction (none
missed), `handle_block_found` returns true and calls `relay_block` exactly once, after
the insert, with hop 0, the chain's current height, the serialized block and the
serialized transactions in the order the chain returned them. -/
theorem handle_block_found_relays_once (E : Env W) (s : core W) (b : block)
    (hadded : (chain_verdict E s b).m_added_to_main_chain = true)
    (hok : (chain_verdict E s b).m_verifivation_failed = false)
    (hmissed : (E.chain_get_transactions b.tx_hashes (world_after_insert E s b)).2 = [])
    (hall : (E.chain_get_transactions b.tx_hashes (world_after_insert E s b)).1.length =
      b.tx_hashes.length) :
    (handle_block_found E s b).1 = true ∧
    relays (handle_block_found E s b).2.trace = relays s.trace ++
      [{ b := { block := E.block_to_blob b,
                txs := (E.chain_get_transactions b.tx_hashes
                  (world_after_insert E s b)).1.map E.t_serializable_object_to_blob },
         current_blockchain_height :=
           E.chain_get_current_blockchain_height (world_after_insert E s b),
         hop := 0 }] ∧
    (handle_block_found E s b).2.trace = s.trace ++ (insert_effects E s b ++
      [Effect.chain_get_current_blockchain_height
         (E.chain_get_current_blockchain_height (world_after_insert E s b)),
       Effect.chain_get_transactions b.tx_hashes
         (E.chain_get_transactions b.tx_hashes (world_after_insert E s b)).1 [],
       Effect.relay_block (relay_notification E s b)]) := by
  rw [handle_block_found_relayed E s b hadded hok hmissed hall]
  refine ⟨rfl, ?_, rfl⟩
  simp [relays_append, relays, insert_effects, relay_notification]

theorem handle_block_found_relays_once_witness :
    (chain_verdict (simEnv simCfg) simCore simBlock).m_added_to_main_chain = true ∧
    (handle_block_found (simEnv simCfg) simCore simBlock).1 = true ∧
    relays (handle_block_found (simEnv simCfg) simCore simBlock).2.trace =
      [{ b := { block := [], txs := [] }, current_blockchain_height := 7, hop := 0 }] :=
  ⟨by decide,
    (handle_block_found_relays_once (simEnv simCfg) simCore simBlock (by decide) (by decide)
      (by decide) (by decide)).1,
    (handle_block_found_relays_once (simEnv simCfg) simCore simBlock (by decide) (by decide)
      (by decide) (by decide)).2.1⟩

/-- Claim C10: when the chain store reports the block as added to the main chain
without a verification failure, some referenced transaction is missed, and the chain's
block id at the height of the block differs from the hash of the block,
`handle_block_found` returns true and does not call `relay_block`: the call adds no
relay to the trace, and the collaborators are left as they were after the miner resumed. -/
theorem handle_block_found_reorg_race_drops_relay (E : Env W) (s : core W) (b : block)
    (hadded : (chain_verdict E s b).m_added_to_main_chain = true)
    (hok : (chain_verdict E s b).m_verifivation_failed = false)
    (hmissed : (E.chain_get_transactions b.tx_hashes (world_after_insert E s b)).2 ≠ [])
    (hid : E.chain_get_block_id_by_height (E.get_block_height b) (world_after_insert E s b) ≠
      E.get_block_hash b) :
    (handle_block_found E s b).1 = true ∧
    relays (handle_block_found E s b).2.trace = relays s.trace ∧
    (handle_block_found E s b).2.world = world_after_insert E s b ∧
    ∃ d : List Effect, (handle_block_found E s b).2.trace = s.trace ++ d ∧ relays d = [] := by
  rw [handle_block_found_reorganized E s b hadded hok hmissed hid]
  refine ⟨rfl, ?_, rfl, _, rfl, ?_⟩
  · simp [relays_append, relays, insert_effects]
  · simp [relays_append, relays, insert_effects]

theorem handle_block_found_reorg_race_drops_relay_witness :
    (chain_verdict (simEnv simCfgReorg) simCore simBlockOneTx).m_added_to_main_chain = true ∧
    (handle_block_found (simEnv simCfgReorg) simCore simBlockOneTx).1 = true ∧
    relays (handle_block_found (simEnv simCfgReorg) simCore simBlockOneTx).2.trace = [] :=
  ⟨by decide,
    (handle_block_found_reorg_race_drops_relay (simEnv simCfgReorg) simCore simBlockOneTx
      (by decide) (by decide) (by decide) (by decide)).1,
    (handle_block_found_reorg_race_drops_relay (simEnv simCfgReorg) simCore simBlockOneTx
      (by decide) (by decide) (by decide) (by decide)).2.1⟩

/-! ## Further lemmas on `handle_block_found` -/

theorem handle_block_found_not_added (E : Env W) (s : core W) (b : block)
    (h : (chain_verdict E s b).m_verifivation_failed = true ∨
      (chain_verdict E s b).m_added_to_main_chain = false) :
    handle_block_found E s b =
      (false,
        { s with
          world := world_after_insert E s b
          trace := s.trace ++ insert_effects E s b }) := by
  unfold chain_verdict at h
  unfold handle_block_found
  simp only [core.miner_pause, add_new_block, update_miner_block_template, core.miner_resume,
    core.emit, insert_effects, chain_verdict, world_after_insert]
  rcases h with h | h
  · simp [h]
  · cases hf : (E.chain_add_new_block b block_verification_context.value_initialized
      (E.miner_pause s.world)).2.1.m_verifivation_failed <;> simp [h]

theorem handle_block_found_missing_tx (E : Env W) (s : core W) (b : block)
    (hadded : (chain_verdict E s b).m_added_to_main_chain = true)
    (hok : (chain_verdict E s b).m_verifivation_failed = false)
    (hmissed : (E.chain_get_transactions b.tx_hashes (world_after_insert E s b)).2 ≠ [])
    (hid : E.chain_get_block_id_by_height (E.get_block_height b) (world_after_insert E s b) =
      E.get_block_hash b) :
    handle_block_found E s b =
      (false,
        { s with
          world := world_after_insert E s b
          trace := s.trace ++ (insert_effects E s b ++
            [Effect.chain_get_current_blockchain_height
               (E.chain_get_current_blockchain_height (world_after_insert E s b)),
             Effect.chain_get_transactions b.tx_hashes
               (E.chain_get_transactions b.tx_hashes (world_after_insert E s b)).1
               (E.chain_get_transactions b.tx_hashes (world_after_insert E s b)).2,
             Effect.chain_get_block_id_by_height (E.get_block_height b)
               (E.chain_get_block_id_by_height (E.get_block_height b)
                 (world_after_insert E s b))]) }) := by
  unfold chain_verdict at hadded hok
  unfold world_after_insert at hmissed hid
  have hlen : ¬ (E.chain_get_transactions b.tx_hashes
      (E.miner_resume (E.miner_on_block_chain_update
        (E.chain_add_new_block b block_verification_context.value_initialized
          (E.miner_pause s.world)).2.2))).2.length = 0 :=
    fun h => hmissed (List.length_eq_zero.1 h)
  unfold handle_block_found
  simp only [core.miner_pause, add_new_block, update_miner_block_template, core.miner_resume,
    core.chain_get_current_blockchain_height, core.chain_get_transactions,
    reorganize_just_happened, core.chain_get_block_id_by_height, core.emit, hadded, hok,
    hlen, hid, insert_effects, chain_verdict, world_after_insert]
  simp [hmissed]

theorem handle_block_found_count_mismatch (E : Env W) (s : core W) (b : block)
    (hadded : (chain_verdict E s b).m_added_to_main_chain = true)
    (hok : (chain_verdict E s b).m_verifivation_failed = false)
    (hmissed : (E.chain_get_transactions b.tx_hashes (world_after_insert E s b)).2 = [])
    (hall : (E.chain_get_transactions b.tx_hashes (world_after_insert E s b)).1.length ≠
      b.tx_hashes.length) :
    handle_block_found E s b =
      (false,
        { s with
          world := world_after_insert E s b
          trace := s.trace ++ (insert_effects E s b ++
            [Effect.chain_get_current_blockchain_height
               (E.chain_get_current_blockchain_height (world_after_insert E s b)),
             Effect.chain_get_transactions b.tx_hashes
               (E.chain_get_transactions b.tx_hashes (world_after_insert E s b)).1 []]) }) := by
  unfold chain_verdict at hadded hok
  unfold world_after_insert at hmissed hall
  unfold handle_block_found
  simp only [core.miner_pause, add_new_block, update_miner_block_template, core.miner_resume,
    core.chain_get_current_blockchain_height, core.chain_get_transactions,
    reorganize_just_happened, core.emit, hadded, hok, hmissed,
    insert_effects, chain_verdict, world_after_insert]
  simp [hall]

theorem handle_block_found_effects (E : Env W) (s : core W) (b : block) :
    ∃ d : List Effect,
      (handle_block_found E s b).2.trace = s.trace ++ (insert_effects E s b ++ d) ∧
      ∀ e ∈ d, e.is_miner_call = false := by
  by_cases hf : (chain_verdict E s b).m_verifivation_failed = true
  · rw [handle_block_found_not_added E s b (Or.inl hf)]
    exact ⟨[], by simp, by simp⟩
  have hok : (chain_verdict E s b).m_verifivation_failed = false := by
    simpa using hf
  by_cases ha : (chain_verdict E s b).m_added_to_main_chain = true
  swap
  · rw [handle_block_found_not_added E s b (Or.inr (by simpa using ha))]
    exact ⟨[], by simp, by simp⟩
  by_cases hm : (E.chain_get_transactions b.tx_hashes (world_after_insert E s b)).2 = []
  · by_cases hl : (E.chain_get_transactions b.tx_hashes (world_after_insert E s b)).1.length =
        b.tx_hashes.length
    · rw [handle_block_found_relayed E s b ha hok hm hl]
      refine ⟨_, rfl, ?_⟩
      intro e he
      simp at he
      rcases he with rfl | rfl | rfl <;> rfl
    · rw [handle_block_found_count_mismatch E s b ha hok hm hl]
      refine ⟨_, rfl, ?_⟩
      intro e he
      simp at he
      rcases he with rfl | rfl <;> rfl
  · by_cases hid : E.chain_get_block_id_by_height (E.get_block_height b)
        (world_after_insert E s b) = E.get_block_hash b
    · rw [handle_block_found_missing_tx E s b ha hok hm hid]
      refine ⟨_, rfl, ?_⟩
      intro e he
      simp at he
      rcases he with rfl | rfl | rfl <;> rfl
    · rw [handle_block_found_reorganized E s b ha hok hm hid]
      refine ⟨_, rfl, ?_⟩
      intro e he
      simp at he
      rcases he with rfl | rfl | rfl <;> rfl

theorem relays_insert_effects (E : Env W) (s : core W) (b : block) :
    relays (insert_effects E s b) = [] := rfl

theorem count_eq_zero_of_no_miner_call (d : List Effect) (x : Effect)
    (hx : x.is_miner_call = true) (hd : ∀ e ∈ d, e.is_miner_call = false) :
    d.count x = 0 := by
  rw [List.count_eq_zero]
  intro hmem
  have := hd x hmem
  rw [hx] at this
  exact Bool.noConfusion this

/-! ## Properties, continued -/

/-- Claim C11, as stated, fails: the chain store reports the block as added to the main
chain without a verification failure, one referenced transaction is missed, and the
chain's block id at the height of the block equals the hash of the block, so this is not
the reorganization race; yet nothing is relayed and `handle_block_found` returns false. -/
theorem handle_block_found_missing_tx_no_relay :
    (chain_verdict (simEnv simCfgMissing) simCore simBlockOneTx).m_added_to_main_chain = true ∧
    (chain_verdict (simEnv simCfgMissing) simCore simBlockOneTx).m_verifivation_failed = false ∧
    ((simEnv simCfgMissing).chain_get_transactions simBlockOneTx.tx_hashes
      (world_after_insert (simEnv simCfgMissing) simCore simBlockOneTx)).2 = [{ data := 5 }] ∧
    (simEnv simCfgMissing).chain_get_block_id_by_height
      ((simEnv simCfgMissing).get_block_height simBlockOneTx)
      (world_after_insert (simEnv simCfgMissing) simCore simBlockOneTx) =
      (simEnv simCfgMissing).get_block_hash simBlockOneTx ∧
    (handle_block_found (simEnv simCfgMissing) simCore simBlockOneTx).1 = false ∧
    relays (handle_block_found (simEnv simCfgMissing) simCore simBlockOneTx).2.trace = [] := by
  decide

/-- Claim C11, amended: when the chain store reports the block as added to the main
chain without a verification failure, `handle_block_found` relays exactly when no
referenced transaction is missed and the chain returned one transaction per referenced
id: then it returns true and calls `relay_block` once, with hop 0, the chain's current
height, the serialized block and the serialized transactions.  In every other case no
relay is dispatched, and the call returns true in the reorganization race (some
transaction missed and the chain's block id at the height of the block differs from its
hash) and false otherwise. -/
theorem handle_block_found_relay_cases (E : Env W) (s : core W) (b : block)
    (hadded : (chain_verdict E s b).m_added_to_main_chain = true)
    (hok : (chain_verdict E s b).m_verifivation_failed = false) :
    (((E.chain_get_transactions b.tx_hashes (world_after_insert E s b)).2 = [] ∧
        (E.chain_get_transactions b.tx_hashes (world_after_insert E s b)).1.length =
          b.tx_hashes.length) →
      (handle_block_found E s b).1 = true ∧
      relays (handle_block_found E s b).2.trace = relays s.trace ++
        [{ b := { block := E.block_to_blob b,
                  txs := (E.chain_get_transactions b.tx_hashes
                    (world_after_insert E s b)).1.map E.t_serializable_object_to_blob },
           current_blockchain_height :=
             E.chain_get_current_blockchain_height (world_after_insert E s b),
           hop := 0 }]) ∧
    (¬ ((E.chain_get_transactions b.tx_hashes (world_after_insert E s b)).2 = [] ∧
        (E.chain_get_transactions b.tx_hashes (world_after_insert E s b)).1.length =
          b.tx_hashes.length) →
      relays (handle_block_found E s b).2.trace = relays s.trace ∧
      ((handle_block_found E s b).1 = true ↔
        ((E.chain_get_transactions b.tx_hashes (world_after_insert E s b)).2 ≠ [] ∧
          E.chain_get_block_id_by_height (E.get_block_height b) (world_after_insert E s b) ≠
            E.get_block_hash b))) := by
  constructor
  · rintro ⟨hm, hl⟩
    rw [handle_block_found_relayed E s b hadded hok hm hl]
    refine ⟨rfl, ?_⟩
    simp [relays_append, relays, insert_effects, relay_notification]
  · intro hnot
    by_cases hm : (E.chain_get_transactions b.tx_hashes (world_after_insert E s b)).2 = []
    · have hl : (E.chain_get_transactions b.tx_hashes (world_after_insert E s b)).1.length ≠
          b.tx_hashes.length := fun hl => hnot ⟨hm, hl⟩
      rw [handle_block_found_count_mismatch E s b hadded hok hm hl]
      refine ⟨by simp [relays_append, relays, insert_effects], ?_⟩
      constructor
      · intro h
        exact Bool.noConfusion h
      · rintro ⟨h, _⟩
        exact absurd hm h
    · by_cases hid : E.chain_get_block_id_by_height (E.get_block_height b)
          (world_after_insert E s b) = E.get_block_hash b
      · rw [handle_block_found_missing_tx E s b hadded hok hm hid]
        refine ⟨by simp [relays_append, relays, insert_effects], ?_⟩
        constructor
        · intro h
          exact Bool.noConfusion h
        · rintro ⟨_, h⟩
          exact absurd hid h
      · rw [handle_block_found_reorganized E s b hadded hok hm hid]
        exact ⟨by simp [relays_append, relays, insert_effects], fun _ => ⟨hm, hid⟩, fun _ => rfl⟩

theorem handle_block_found_relay_cases_witness :
    (chain_verdict (simEnv simCfgMissing) simCore simBlockOneTx).m_added_to_main_chain = true ∧
    (chain_verdict (simEnv simCfgMissing) simCore simBlockOneTx).m_verifivation_failed = false ∧
    relays (handle_block_found (simEnv simCfgMissing) simCore simBlockOneTx).2.trace =
      relays simCore.trace :=
  ⟨by decide, by decide,
    ((handle_block_found_relay_cases (simEnv simCfgMissing) simCore simBlockOneTx
      (by decide) (by decide)).2 (by decide)).1⟩

/-- Claim C12: whatever the chain's verdict on the block, the effects of
`handle_block_found` begin with miner pause, chain `add_new_block`, miner
`on_block_chain_update`, miner resume, in this order; no further call on the miner
follows, so the call issues exactly one pause and exactly one resume, also on the paths
that return false. -/
theorem handle_block_found_pause_bracket (E : Env W) (s : core W) (b : block) :
    ∃ (res : Bool) (d : List Effect),
      (handle_block_found E s b).2.trace = s.trace ++
        (Effect.miner_pause :: Effect.chain_add_new_block b (chain_verdict E s b) res ::
          Effect.miner_on_block_chain_update :: Effect.miner_resume :: d) ∧
      (∀ e ∈ d, e.is_miner_call = false) ∧
      (Effect.miner_pause :: Effect.chain_add_new_block b (chain_verdict E s b) res ::
        Effect.miner_on_block_chain_update :: Effect.miner_resume :: d).count
          Effect.miner_pause = 1 ∧
      (Effect.miner_pause :: Effect.chain_add_new_block b (chain_verdict E s b) res ::
        Effect.miner_on_block_chain_update :: Effect.miner_resume :: d).count
          Effect.miner_resume = 1 := by
  obtain ⟨d, hd, hno⟩ := handle_block_found_effects E s b
  refine ⟨_, d, hd, hno, ?_, ?_⟩
  · have h0 := count_eq_zero_of_no_miner_call d Effect.miner_pause rfl hno
    simp [List.count_cons, h0]
  · have h0 := count_eq_zero_of_no_miner_call d Effect.miner_resume rfl hno
    simp [List.count_cons, h0]

/-! ## Lemmas on `handle_incoming_block` -/

theorem update_checkpoints_effects (E : Env W) (s : core W) :
    ∃ d : List Effect,
      (update_checkpoints E s).2.trace = s.trace ++ d ∧
      (update_checkpoints E s).2.m_fast_exit = s.m_fast_exit ∧
      ∀ e ∈ d, e.is_chain_add_new_block = false ∧ e.is_miner_call = false := by
  by_cases h1 : E.time s.time_calls - s.m_last_dns_checkpoints_update ≥ 3600
  · rw [update_checkpoints_combined E s h1]
    refine ⟨_, rfl, rfl, ?_⟩
    intro e he
    cases hres : (E.chain_update_checkpoints s.m_checkpoints_path true s.world).1 <;>
      simp [hres, exit_effects] at he
    · rcases he with rfl | rfl | rfl | rfl <;> exact ⟨rfl, rfl⟩
    · rcases he with rfl | rfl | rfl <;> exact ⟨rfl, rfl⟩
  · by_cases h2 : E.time (s.time_calls + 1) - s.m_last_json_checkpoints_update ≥ 600
    · rw [update_checkpoints_json_only E s h1 h2]
      refine ⟨_, rfl, rfl, ?_⟩
      intro e he
      cases hres : (E.chain_update_checkpoints s.m_checkpoints_path false s.world).1 <;>
        simp [hres, exit_effects] at he
      · rcases he with rfl | rfl | rfl <;> exact ⟨rfl, rfl⟩
      · rcases he with rfl | rfl <;> exact ⟨rfl, rfl⟩
    · rw [update_checkpoints_idle E s h1 h2]
      exact ⟨[], by simp, rfl, by simp⟩

theorem handle_incoming_block_refresh_failed (E : Env W) (s : core W) (block_blob : blobdata)
    (bvc : block_verification_context) (update_miner_blocktemplate : Bool)
    (hcp : (update_checkpoints E s).1 = false) :
    handle_incoming_block E s block_blob bvc update_miner_blocktemplate =
      (false, bvc, (update_checkpoints E s).2) := by
  unfold handle_incoming_block
  simp [hcp]

theorem handle_incoming_block_gate_rejected (E : Env W) (s : core W) (block_blob : blobdata)
    (bvc : block_verification_context) (update_miner_blocktemplate : Bool)
    (hcp : (update_checkpoints E s).1 = true)
    (hgate : block_blob.length > E.get_max_block_size ∨
      E.parse_and_validate_block_from_blob block_blob = none) :
    handle_incoming_block E s block_blob bvc update_miner_blocktemplate =
      (false,
        { m_added_to_main_chain := false, m_verifivation_failed := true,
          m_already_exists := false },
        (update_checkpoints E s).2) := by
  unfold handle_incoming_block
  by_cases hsize : block_blob.length > E.get_max_block_size
  · simp [hcp, hsize, block_verification_context.value_initialized]
  · rcases hgate with h | h
    · exact absurd h hsize
    · simp [hcp, hsize, h, block_verification_context.value_initialized]

theorem handle_incoming_block_passed_eq (E : Env W) (s : core W) (block_blob : blobdata)
    (bvc : block_verification_context) (update_miner_blocktemplate : Bool) (b : block)
    (hcp : (update_checkpoints E s).1 = true)
    (hsize : block_blob.length ≤ E.get_max_block_size)
    (hparse : E.parse_and_validate_block_from_blob block_blob = some b) :
    handle_incoming_block E s block_blob bvc update_miner_blocktemplate =
      (true, incoming_verdict E s b,
        { (update_checkpoints E s).2 with
          world :=
            if update_miner_blocktemplate && (incoming_verdict E s b).m_added_to_main_chain then
              E.miner_on_block_chain_update
                (E.chain_add_new_block b block_verification_context.value_initialized
                  (update_checkpoints E s).2.world).2.2
            else
              (E.chain_add_new_block b block_verification_context.value_initialized
                (update_checkpoints E s).2.world).2.2
          trace := (update_checkpoints E s).2.trace ++
            (Effect.chain_add_new_block b (incoming_verdict E s b)
                (E.chain_add_new_block b block_verification_context.value_initialized
                  (update_checkpoints E s).2.world).1 ::
              (if update_miner_blocktemplate &&
                  (incoming_verdict E s b).m_added_to_main_chain then
                [Effect.miner_on_block_chain_update] else [])) }) := by
  have hnot : ¬ block_blob.length > E.get_max_block_size := by omega
  unfold handle_incoming_block incoming_verdict
  simp only [hcp, hnot, hparse, add_new_block, update_miner_block_template, core.emit,
    Bool.not_true, Bool.false_eq_true, if_false]
  cases update_miner_blocktemplate <;>
  cases (E.chain_add_new_block b block_verification_context.value_initialized
    (update_checkpoints E s).2.world).2.1.m_added_to_main_chain <;> simp

theorem handle_incoming_block_passed (E : Env W) (s : core W) (block_blob : blobdata)
    (bvc : block_verification_context) (update_miner_blocktemplate : Bool) (b : block)
    (hcp : (update_checkpoints E s).1 = true)
    (hsize : block_blob.length ≤ E.get_max_block_size)
    (hparse : E.parse_and_validate_block_from_blob block_blob = some b) :
    (handle_incoming_block E s block_blob bvc update_miner_blocktemplate).1 = true ∧
    (handle_incoming_block E s block_blob bvc update_miner_blocktemplate).2.1 =
      incoming_verdict E s b ∧
    (handle_incoming_block E s block_blob bvc update_miner_blocktemplate).2.2.trace =
      (update_checkpoints E s).2.trace ++ incoming_effects E s b update_miner_blocktemplate ∧
    (handle_incoming_block E s block_blob bvc update_miner_blocktemplate).2.2.m_fast_exit =
      (update_checkpoints E s).2.m_fast_exit := by
  have hnot : ¬ block_blob.length > E.get_max_block_size := by omega
  unfold handle_incoming_block incoming_effects incoming_verdict
  simp only [hcp, hnot, hparse, add_new_block, update_miner_block_template, core.emit,
    Bool.not_true, Bool.false_eq_true, if_false]
  cases update_miner_blocktemplate <;>
  cases (E.chain_add_new_block b block_verification_context.value_initialized
    (update_checkpoints E s).2.world).2.1.m_added_to_main_chain <;> simp

theorem countP_eq_zero_of_none (p : Effect → Bool) (d : List Effect)
    (hd : ∀ e ∈ d, p e = false) : d.countP p = 0 := by
  rw [List.countP_eq_zero]
  intro e he
  simp [hd e he]

/-- Claim C13: for a blob that passes the checkpoint refresh, the size gate and
parsing, `handle_incoming_block` returns true with `bvc` the chain's verdict on the
parsed block, and ends in the state left by the refresh, then one call of the chain's
`add_new_block` (on a value-initialized `bvc`), then the miner's
`on_block_chain_update` if and only if the chain reported `m_added_to_main_chain` and
`update_miner_blocktemplate` is set: the collaborators are in the state these calls
leave and the trace has grown by exactly these effects.  So `add_new_block` is called
exactly once, the template is refreshed at most once, and a block the chain does not
add to the main chain (as when it already has it) triggers no template refresh. -/
theorem handle_incoming_block_insert_and_refresh (E : Env W) (s : core W)
    (block_blob : blobdata) (bvc : block_verification_context)
    (update_miner_blocktemplate : Bool) (b : block)
    (hcp : (update_checkpoints E s).1 = true)
    (hsize : block_blob.length ≤ E.get_max_block_size)
    (hparse : E.parse_and_validate_block_from_blob block_blob = some b) :
    handle_incoming_block E s block_blob bvc update_miner_blocktemplate =
      (true, incoming_verdict E s b,
        { (update_checkpoints E s).2 with
          world :=
            if update_miner_blocktemplate && (incoming_verdict E s b).m_added_to_main_chain then
              E.miner_on_block_chain_update
                (E.chain_add_new_block b block_verification_context.value_initialized
                  (update_checkpoints E s).2.world).2.2
            else
              (E.chain_add_new_block b block_verification_context.value_initialized
                (update_checkpoints E s).2.world).2.2
          trace := (update_checkpoints E s).2.trace ++
            (Effect.chain_add_new_block b (incoming_verdict E s b)
                (E.chain_add_new_block b block_verification_context.value_initialized
                  (update_checkpoints E s).2.world).1 ::
              (if update_miner_blocktemplate &&
                  (incoming_verdict E s b).m_added_to_main_chain then
                [Effect.miner_on_block_chain_update] else [])) }) ∧
    ∃ d : List Effect,
      (handle_incoming_block E s block_blob bvc update_miner_blocktemplate).2.2.trace =
        s.trace ++ d ∧
      d.countP Effect.is_chain_add_new_block = 1 ∧
      d.count Effect.miner_on_block_chain_update ≤ 1 ∧
      (Effect.miner_on_block_chain_update ∈ d ↔
        ((incoming_verdict E s b).m_added_to_main_chain = true ∧
          update_miner_blocktemplate = true)) ∧
      ((incoming_verdict E s b).m_added_to_main_chain = false →
        Effect.miner_on_block_chain_update ∉ d) := by
  refine ⟨handle_incoming_block_passed_eq E s block_blob bvc update_miner_blocktemplate b
    hcp hsize hparse, ?_⟩
  obtain ⟨_, _, htr, _⟩ := handle_incoming_block_passed E s block_blob bvc
    update_miner_blocktemplate b hcp hsize hparse
  obtain ⟨d0, hd0, _, hno⟩ := update_checkpoints_effects E s
  have hc0 : d0.countP Effect.is_chain_add_new_block = 0 :=
    countP_eq_zero_of_none _ d0 (fun e he => (hno e he).1)
  have hm0 : Effect.miner_on_block_chain_update ∉ d0 := by
    intro hmem
    have := (hno _ hmem).2
    exact Bool.noConfusion this
  have hk0 : d0.count Effect.miner_on_block_chain_update = 0 := List.count_eq_zero.2 hm0
  refine ⟨d0 ++ incoming_effects E s b update_miner_blocktemplate, ?_, ?_, ?_, ?_, ?_⟩
  · rw [htr, hd0, List.append_assoc]
  · rw [List.countP_append, hc0]
    unfold incoming_effects
    cases update_miner_blocktemplate <;>
      cases (incoming_verdict E s b).m_added_to_main_chain <;>
      simp [List.countP_cons, Effect.is_chain_add_new_block]
  · rw [List.count_append, hk0]
    unfold incoming_effects
    cases update_miner_blocktemplate <;>
      cases (incoming_verdict E s b).m_added_to_main_chain <;>
      simp [List.count_cons]
  · unfold incoming_effects
    cases update_miner_blocktemplate <;>
      cases (incoming_verdict E s b).m_added_to_main_chain <;>
      simp [hm0]
  · intro hna
    unfold incoming_effects
    simp [hm0, hna]

theorem handle_incoming_block_insert_and_refresh_witness :
    (update_checkpoints (simEnv simCfgAlreadyExists) simCore).1 = true ∧
    ([1, 2] : blobdata).length ≤ (simEnv simCfgAlreadyExists).get_max_block_size ∧
    (simEnv simCfgAlreadyExists).parse_and_validate_block_from_blob [1, 2] =
      some { header := 2, tx_hashes := [] } ∧
    (incoming_verdict (simEnv simCfgAlreadyExists) simCore
      { header := 2, tx_hashes := [] }).m_added_to_main_chain = false ∧
    (handle_incoming_block (simEnv simCfgAlreadyExists) simCore [1, 2]
      block_verification_context.value_initialized true).1 = true ∧
    (handle_incoming_block (simEnv simCfgAlreadyExists) simCore [1, 2]
      block_verification_context.value_initialized true).2.2.trace =
      [Effect.chain_add_new_block { header := 2, tx_hashes := [] }
        { m_added_to_main_chain := false, m_verifivation_failed := false,
          m_already_exists := true } true] :=
  ⟨by decide, by decide, rfl, by decide,
    congrArg Prod.fst (handle_incoming_block_insert_and_refresh (simEnv simCfgAlreadyExists)
      simCore [1, 2] block_verification_context.value_initialized true
      { header := 2, tx_hashes := [] } (by decide) (by decide) rfl).1,
    by decide⟩

/-- Claim C16, as stated, fails: when the checkpoint refresh fails, an oversize blob
and an unparsable blob both make `handle_incoming_block` return false with the caller's
`bvc` untouched, so `m_verifivation_failed` is not set: the function returns before
`bvc` is reset and before the blob is looked at. -/
theorem handle_incoming_block_failed_refresh_leaves_bvc :
    (update_checkpoints (simEnv simCfgFailing) simCore).1 = false ∧
    (([1, 2, 3, 4, 5] : blobdata).length > (simEnv simCfgFailing).get_max_block_size ∧
      (handle_incoming_block (simEnv simCfgFailing) simCore [1, 2, 3, 4, 5]
        block_verification_context.value_initialized true).1 = false ∧
      (handle_incoming_block (simEnv simCfgFailing) simCore [1, 2, 3, 4, 5]
        block_verification_context.value_initialized true).2.1.m_verifivation_failed = false) ∧
    ((simEnv simCfgFailing).parse_and_validate_block_from_blob [] = none ∧
      (handle_incoming_block (simEnv simCfgFailing) simCore []
        block_verification_context.value_initialized true).1 = false ∧
      (handle_incoming_block (simEnv simCfgFailing) simCore []
        block_verification_context.value_initialized true).2.1.m_verifivation_failed = false) := by
  decide

/-- Claim C16, amended: the return value of `handle_incoming_block` does not reflect
the chain's verdict.  It is false exactly when the checkpoint refresh fails, or the
blob is longer than `get_max_block_size()`, or the blob does not parse.  When the
refresh fails, `bvc` is left as the caller passed it, whatever the blob is.  When the
refresh succeeded and the blob is too long or does not parse, `bvc` is
value-initialized with `m_verifivation_failed` set, and the call ends in the state the
refresh left.  Whenever the call returns false, `add_new_block` is not among its
effects.  For a blob that passes the three gates the call returns true, `bvc` is the
chain's verdict, whatever that verdict is, and the state is the one the chain insert
and the template refresh leave. -/
theorem handle_incoming_block_return_value (E : Env W) (s : core W) (block_blob : blobdata)
    (bvc : block_verification_context) (update_miner_blocktemplate : Bool) :
    ((handle_incoming_block E s block_blob bvc update_miner_blocktemplate).1 = false ↔
      ((update_checkpoints E s).1 = false ∨
        block_blob.length > E.get_max_block_size ∨
        E.parse_and_validate_block_from_blob block_blob = none)) ∧
    ((update_checkpoints E s).1 = false →
      handle_incoming_block E s block_blob bvc update_miner_blocktemplate =
        (false, bvc, (update_checkpoints E s).2)) ∧
    ((update_checkpoints E s).1 = true →
      (block_blob.length > E.get_max_block_size ∨
        E.parse_and_validate_block_from_blob block_blob = none) →
      handle_incoming_block E s block_blob bvc update_miner_blocktemplate =
        (false,
          { m_added_to_main_chain := false, m_verifivation_failed := true,
            m_already_exists := false },
          (update_checkpoints E s).2)) ∧
    ((handle_incoming_block E s block_blob bvc update_miner_blocktemplate).1 = false →
      ∃ d : List Effect,
        (handle_incoming_block E s block_blob bvc update_miner_blocktemplate).2.2.trace =
          s.trace ++ d ∧
        ∀ e ∈ d, e.is_chain_add_new_block = false) ∧
    (∀ b : block, (update_checkpoints E s).1 = true →
      block_blob.length ≤ E.get_max_block_size →
      E.parse_and_validate_block_from_blob block_blob = some b →
      handle_incoming_block E s block_blob bvc update_miner_blocktemplate =
        (true, incoming_verdict E s b,
          { (update_checkpoints E s).2 with
            world :=
              if update_miner_blocktemplate &&
                  (incoming_verdict E s b).m_added_to_main_chain then
                E.miner_on_block_chain_update
                  (E.chain_add_new_block b block_verification_context.value_initialized
                    (update_checkpoints E s).2.world).2.2
              else
                (E.chain_add_new_block b block_verification_context.value_initialized
                  (update_checkpoints E s).2.world).2.2
            trace := (update_checkpoints E s).2.trace ++
              (Effect.chain_add_new_block b (incoming_verdict E s b)
                  (E.chain_add_new_block b block_verification_context.value_initialized
                    (update_checkpoints E s).2.world).1 ::
                (if update_miner_blocktemplate &&
                    (incoming_verdict E s b).m_added_to_main_chain then
                  [Effect.miner_on_block_chain_update] else [])) })) := by
  have hiff : (handle_incoming_block E s block_blob bvc update_miner_blocktemplate).1 = false ↔
      ((update_checkpoints E s).1 = false ∨
        block_blob.length > E.get_max_block_size ∨
        E.parse_and_validate_block_from_blob block_blob = none) := by
    cases hcp : (update_checkpoints E s).1 with
    | false =>
      rw [handle_incoming_block_refresh_failed E s block_blob bvc update_miner_blocktemplate hcp]
      simp
    | true =>
      by_cases hsize : block_blob.length > E.get_max_block_size
      · rw [handle_incoming_block_gate_rejected E s block_blob bvc update_miner_blocktemplate
          hcp (Or.inl hsize)]
        simp [hsize]
      · cases hparse : E.parse_and_validate_block_from_blob block_blob with
        | none =>
          rw [handle_incoming_block_gate_rejected E s block_blob bvc update_miner_blocktemplate
            hcp (Or.inr hparse)]
          simp
        | some b =>
          have h := (handle_incoming_block_passed E s block_blob bvc
            update_miner_blocktemplate b hcp (by omega) hparse).1
          rw [h]
          simp [hsize]
  obtain ⟨d0, hd0, _, hno⟩ := update_checkpoints_effects E s
  refine ⟨hiff, ?_, ?_, ?_, ?_⟩
  · intro hcp
    exact handle_incoming_block_refresh_failed E s block_blob bvc update_miner_blocktemplate hcp
  · intro hcp hgate
    exact handle_incoming_block_gate_rejected E s block_blob bvc update_miner_blocktemplate
      hcp hgate
  · intro hfalse
    cases hcp : (update_checkpoints E s).1 with
    | false =>
      rw [handle_incoming_block_refresh_failed E s block_blob bvc update_miner_blocktemplate hcp]
      exact ⟨d0, hd0, fun e he => (hno e he).1⟩
    | true =>
      have hgate : block_blob.length > E.get_max_block_size ∨
          E.parse_and_validate_block_from_blob block_blob = none := by
        rcases hiff.1 hfalse with h | h
        · rw [hcp] at h
          exact Bool.noConfusion h
        · exact h
      rw [handle_incoming_block_gate_rejected E s block_blob bvc update_miner_blocktemplate
        hcp hgate]
      exact ⟨d0, hd0, fun e he => (hno e he).1⟩
  · intro b hcp hsize hparse
    exact handle_incoming_block_passed_eq E s block_blob bvc update_miner_blocktemplate b
      hcp hsize hparse

theorem handle_incoming_block_return_value_witness :
    (update_checkpoints (simEnv simCfgRejected) simCore).1 = true ∧
    ([1, 2] : blobdata).length ≤ (simEnv simCfgRejected).get_max_block_size ∧
    (simEnv simCfgRejected).parse_and_validate_block_from_blob [1, 2] =
      some { header := 2, tx_hashes := [] } ∧
    (incoming_verdict (simEnv simCfgRejected) simCore
      { header := 2, tx_hashes := [] }).m_verifivation_failed = true ∧
    (handle_incoming_block (simEnv simCfgRejected) simCore [1, 2]
      block_verification_context.value_initialized true).1 = true :=
  ⟨by decide, by decide, rfl, by decide,
    congrArg Prod.fst ((handle_incoming_block_return_value (simEnv simCfgRejected) simCore
      [1, 2] block_verification_context.value_initialized true).2.2.2.2
      { header := 2, tx_hashes := [] } (by decide) (by decide) rfl)⟩

/-! ## Lemmas on pausing and on the fast-exit flag -/

theorem refresh_while_paused_of_no_miner_call (d : List Effect) :
    ∀ depth : Nat, (∀ e ∈ d, e.is_miner_call = false) → refresh_while_paused depth d = true := by
  induction d with
  | nil => intro depth _; rfl
  | cons x rest ih =>
    intro depth hd
    have hx := hd x (List.mem_cons_self _ _)
    have hrest := ih depth (fun e he => hd e (List.mem_cons_of_mem _ he))
    cases x <;> first
      | exact Bool.noConfusion hx
      | simpa [refresh_while_paused] using hrest

theorem refresh_while_paused_succ_append (d rest : List Effect) (depth : Nat)
    (hd : ∀ e ∈ d, e ≠ Effect.miner_pause ∧ e ≠ Effect.miner_resume) :
    refresh_while_paused (depth + 1) (d ++ rest) = refresh_while_paused (depth + 1) rest := by
  induction d with
  | nil => rfl
  | cons x xs ih =>
    have hx := hd x (List.mem_cons_self _ _)
    have hxs := ih (fun e he => hd e (List.mem_cons_of_mem _ he))
    cases x <;> first
      | exact absurd rfl hx.1
      | exact absurd rfl hx.2
      | simpa [refresh_while_paused] using hxs

theorem refresh_while_paused_zero_iff (d : List Effect)
    (hd : ∀ e ∈ d, e ≠ Effect.miner_pause ∧ e ≠ Effect.miner_resume) :
    refresh_while_paused 0 d = true ↔ Effect.miner_on_block_chain_update ∉ d := by
  induction d with
  | nil => simp [refresh_while_paused]
  | cons x xs ih =>
    have hx := hd x (List.mem_cons_self _ _)
    have hxs := ih (fun e he => hd e (List.mem_cons_of_mem _ he))
    cases x <;> first
      | exact absurd rfl hx.1
      | exact absurd rfl hx.2
      | simp [refresh_while_paused, hxs]

theorem handle_incoming_block_effects (E : Env W) (s : core W) (block_blob : blobdata)
    (bvc : block_verification_context) (update_miner_blocktemplate : Bool) :
    ∃ d : List Effect,
      (handle_incoming_block E s block_blob bvc update_miner_blocktemplate).2.2.trace =
        s.trace ++ d ∧
      (handle_incoming_block E s block_blob bvc update_miner_blocktemplate).2.2.m_fast_exit =
        s.m_fast_exit ∧
      ∀ e ∈ d, e ≠ Effect.miner_pause ∧ e ≠ Effect.miner_resume := by
  obtain ⟨d0, hd0, hfe, hno⟩ := update_checkpoints_effects E s
  have hno0 : ∀ e ∈ d0, e ≠ Effect.miner_pause ∧ e ≠ Effect.miner_resume := by
    intro e he
    have h := (hno e he).2
    constructor <;> (rintro rfl; exact Bool.noConfusion h)
  cases hcp : (update_checkpoints E s).1 with
  | false =>
    rw [handle_incoming_block_refresh_failed E s block_blob bvc update_miner_blocktemplate hcp]
    exact ⟨d0, hd0, hfe, hno0⟩
  | true =>
    by_cases hsize : block_blob.length > E.get_max_block_size
    · rw [handle_incoming_block_gate_rejected E s block_blob bvc update_miner_blocktemplate
        hcp (Or.inl hsize)]
      exact ⟨d0, hd0, hfe, hno0⟩
    · cases hparse : E.parse_and_validate_block_from_blob block_blob with
      | none =>
        rw [handle_incoming_block_gate_rejected E s block_blob bvc update_miner_blocktemplate
          hcp (Or.inr hparse)]
        exact ⟨d0, hd0, hfe, hno0⟩
      | some b =>
        obtain ⟨_, _, htr, hfe2⟩ := handle_incoming_block_passed E s block_blob bvc
          update_miner_blocktemplate b hcp (by omega) hparse
        refine ⟨d0 ++ incoming_effects E s b update_miner_blocktemplate, ?_, ?_, ?_⟩
        · rw [htr, hd0, List.append_assoc]
        · rw [hfe2, hfe]
        · intro e he
          rcases List.mem_append.1 he with he | he
          · exact hno0 e he
          · unfold incoming_effects at he
            rcases List.mem_cons.1 he with rfl | he
            · exact ⟨by simp, by simp⟩
            · split at he
              · simp at he
                subst he
                exact ⟨by simp, by simp⟩
              · simp at he

theorem check_tx_semantic_fast_exit (E : Env W) (s : core W) (tx : transaction)
    (keeped_by_block : Bool) :
    (check_tx_semantic E s tx keeped_by_block).2.m_fast_exit = s.m_fast_exit := by
  rcases check_tx_semantic_state E s tx keeped_by_block with h | h <;> rw [h]
  rfl

theorem add_new_tx_fast_exit (E : Env W) (s : core W) (tx : transaction)
    (id ph : crypto.hash) (n : Nat) (tvc : tx_verification_context) (keeped_by_block : Bool) :
    (add_new_tx E s tx id ph n tvc keeped_by_block).2.2.m_fast_exit = s.m_fast_exit := by
  unfold add_new_tx
  simp only [core.mempool_have_tx, core.chain_have_tx, core.mempool_add_tx, core.emit]
  split_ifs <;> rfl

theorem handle_incoming_tx_fast_exit (E : Env W) (s : core W) (tx_blob : blobdata)
    (tvc : tx_verification_context) (keeped_by_block : Bool) :
    (handle_incoming_tx E s tx_blob tvc keeped_by_block).2.2.m_fast_exit = s.m_fast_exit := by
  unfold handle_incoming_tx
  by_cases hsize : tx_blob.length > E.get_max_tx_size
  · simp [hsize]
  · cases hparse : parse_tx_from_blob E tx_blob with
    | none => simp [hsize]
    | some r =>
      obtain ⟨tx, id, ph⟩ := r
      cases hsem : (check_tx_semantic E s tx keeped_by_block).1 with
      | false =>
        simp [hsize, check_tx_syntax, hsem, check_tx_semantic_fast_exit]
      | true =>
        simp [hsize, check_tx_syntax, hsem, add_new_tx_fast_exit,
          check_tx_semantic_fast_exit]

theorem handle_block_found_fast_exit (E : Env W) (s : core W) (b : block) :
    (handle_block_found E s b).2.m_fast_exit = s.m_fast_exit := by
  by_cases hf : (chain_verdict E s b).m_verifivation_failed = true
  · rw [handle_block_found_not_added E s b (Or.inl hf)]
  have hok : (chain_verdict E s b).m_verifivation_failed = false := by
    simpa using hf
  by_cases ha : (chain_verdict E s b).m_added_to_main_chain = true
  swap
  · rw [handle_block_found_not_added E s b (Or.inr (by simpa using ha))]
  by_cases hm : (E.chain_get_transactions b.tx_hashes (world_after_insert E s b)).2 = []
  · by_cases hl : (E.chain_get_transactions b.tx_hashes (world_after_insert E s b)).1.length =
        b.tx_hashes.length
    · rw [handle_block_found_relayed E s b ha hok hm hl]
    · rw [handle_block_found_count_mismatch E s b ha hok hm hl]
  · by_cases hid : E.chain_get_block_id_by_height (E.get_block_height b)
        (world_after_insert E s b) = E.get_block_hash b
    · rw [handle_block_found_missing_tx E s b ha hok hm hid]
    · rw [handle_block_found_reorganized E s b ha hok hm hid]

theorem deinit_effects (E : Env W) (s : core W) :
    (deinit E s).1 = true ∧
    (deinit E s).2.m_fast_exit = s.m_fast_exit ∧
    (deinit E s).2.trace = s.trace ++
      (Effect.miner_stop :: Effect.mempool_deinit ::
        (if get_fast_exit s then [] else [Effect.chain_deinit])) ∧
    (deinit E s).2.world =
      (if get_fast_exit s then E.mempool_deinit (E.miner_stop s.world)
        else E.chain_deinit (E.mempool_deinit (E.miner_stop s.world))) := by
  unfold deinit get_fast_exit
  cases h : s.m_fast_exit <;> simp [core.emit, h]

theorem run_op_fast_exit (E : Env W) (s : core W) (op : core_op)
    (h : s.m_fast_exit = true) : (run_op E s op).m_fast_exit = true := by
  cases op with
  | update_checkpoints =>
    obtain ⟨_, _, hfe, _⟩ := update_checkpoints_effects E s
    simp only [run_op, hfe, h]
  | handle_incoming_tx tx_blob tvc keeped_by_block =>
    simp only [run_op, handle_incoming_tx_fast_exit, h]
  | handle_block_found b =>
    simp only [run_op, handle_block_found_fast_exit, h]
  | handle_incoming_block block_blob bvc u =>
    obtain ⟨_, _, hfe, _⟩ := handle_incoming_block_effects E s block_blob bvc u
    simp only [run_op, hfe, h]
  | add_new_block b bvc => exact h
  | update_miner_block_template => exact h
  | pause_mine => exact h
  | resume_mine => exact h
  | stop => exact h
  | deinit =>
    simp only [run_op, (deinit_effects E s).2.1, h]
  | set_fast_exit => rfl
  | get_fast_exit => exact h

theorem run_ops_fast_exit (E : Env W) (ops : List core_op) :
    ∀ s : core W, s.m_fast_exit = true → (run_ops E s ops).m_fast_exit = true := by
  induction ops with
  | nil => intro s h; exact h
  | cons op rest ih =>
    intro s h
    exact ih (run_op E s op) (run_op_fast_exit E s op h)

/-! ## Properties on pausing and teardown -/

/-- Claim C14, as stated, fails: on a fresh coordinator (nothing called before),
`handle_incoming_block` with `update_miner_blocktemplate` set, for a block the chain adds
to the main chain, refreshes the miner template although the coordinator never called
the miner's pause. -/
theorem handle_incoming_block_refresh_not_paused :
    simCore.trace = [] ∧
    (handle_incoming_block (simEnv simCfg) simCore [1, 2]
      block_verification_context.value_initialized true).2.2.trace =
      [Effect.chain_add_new_block { header := 2, tx_hashes := [] }
         { m_added_to_main_chain := true, m_verifivation_failed := false,
           m_already_exists := false } true,
       Effect.miner_on_block_chain_update] ∧
    refresh_while_paused 0 (handle_incoming_block (simEnv simCfg) simCore [1, 2]
      block_verification_context.value_initialized true).2.2.trace = false := by
  decide

/-- Claim C14, amended: in `handle_block_found` the template refresh is always
performed while paused: the call pauses the miner before the refresh and resumes it
after.  `handle_incoming_block` calls neither pause nor resume: its template refresh
is performed while paused exactly when the miner was already paused at entry, as it is
when the caller brackets the call with `pause_mine` and `resume_mine`. -/
theorem template_refresh_pausing (E : Env W) (s : core W) :
    (∀ (b : block) (depth : Nat), ∃ d : List Effect,
      (handle_block_found E s b).2.trace = s.trace ++ d ∧
      refresh_while_paused depth d = true) ∧
    (∀ (block_blob : blobdata) (bvc : block_verification_context)
        (update_miner_blocktemplate : Bool), ∃ d : List Effect,
      (handle_incoming_block E s block_blob bvc update_miner_blocktemplate).2.2.trace =
        s.trace ++ d ∧
      Effect.miner_pause ∉ d ∧ Effect.miner_resume ∉ d ∧
      (∀ depth : Nat, refresh_while_paused (depth + 1) d = true) ∧
      (refresh_while_paused 0 d = true ↔ Effect.miner_on_block_chain_update ∉ d)) ∧
    (∀ (block_blob : blobdata) (bvc : block_verification_context)
        (update_miner_blocktemplate : Bool), ∃ d : List Effect,
      (resume_mine E (handle_incoming_block E (pause_mine E s) block_blob bvc
        update_miner_blocktemplate).2.2).trace = s.trace ++ d ∧
      refresh_while_paused 0 d = true) := by
  refine ⟨?_, ?_, ?_⟩
  · intro b depth
    obtain ⟨d, hd, hno⟩ := handle_block_found_effects E s b
    refine ⟨_, hd, ?_⟩
    have h := refresh_while_paused_of_no_miner_call d depth hno
    simp [insert_effects, refresh_while_paused, h]
  · intro block_blob bvc u
    obtain ⟨d, hd, _, hno⟩ := handle_incoming_block_effects E s block_blob bvc u
    refine ⟨d, hd, fun hm => (hno _ hm).1 rfl, fun hm => (hno _ hm).2 rfl, ?_,
      refresh_while_paused_zero_iff d hno⟩
    intro depth
    have h := refresh_while_paused_succ_append d [] depth hno
    simpa [refresh_while_paused] using h
  · intro block_blob bvc u
    obtain ⟨d, hd, _, hno⟩ := handle_incoming_block_effects E (pause_mine E s) block_blob bvc u
    refine ⟨Effect.miner_pause :: (d ++ [Effect.miner_resume]), ?_, ?_⟩
    · have htr : (resume_mine E (handle_incoming_block E (pause_mine E s) block_blob bvc
          u).2.2).trace = (handle_incoming_block E (pause_mine E s) block_blob bvc
          u).2.2.trace ++ [Effect.miner_resume] := rfl
      rw [htr, hd]
      simp [pause_mine, core.miner_pause, core.emit]
    · have h := refresh_while_paused_succ_append d [Effect.miner_resume] 0 hno
      simp only [refresh_while_paused]
      rw [h]
      rfl

/-- Claim C15: the fast-exit flag is false on a freshly constructed coordinator.
`deinit` returns true after stopping the miner, then deinitializing the mempool, then,
if and only if the flag is not set, deinitializing the chain store.  After
`set_fast_exit`, whatever calls follow, `get_fast_exit` returns true and `deinit` stops
the miner and deinitializes the mempool without calling the chain store's `deinit`. -/
theorem deinit_order_and_fast_exit (E : Env W) (s : core W) (w : W) (ops : List core_op) :
    get_fast_exit (core_ctor w) = false ∧
    (deinit E s).1 = true ∧
    (deinit E s).2.trace = s.trace ++
      (Effect.miner_stop :: Effect.mempool_deinit ::
        (if get_fast_exit s then [] else [Effect.chain_deinit])) ∧
    (deinit E s).2.world =
      (if get_fast_exit s then E.mempool_deinit (E.miner_stop s.world)
        else E.chain_deinit (E.mempool_deinit (E.miner_stop s.world))) ∧
    get_fast_exit (set_fast_exit s) = true ∧
    get_fast_exit (run_ops E (set_fast_exit s) ops) = true ∧
    (deinit E (run_ops E (set_fast_exit s) ops)).2.trace =
      (run_ops E (set_fast_exit s) ops).trace ++ [Effect.miner_stop, Effect.mempool_deinit] := by
  have hset : get_fast_exit (run_ops E (set_fast_exit s) ops) = true :=
    run_ops_fast_exit E ops (set_fast_exit s) rfl
  obtain ⟨h1, _, h3, h4⟩ := deinit_effects E s
  refine ⟨rfl, h1, h3, h4, rfl, hset, ?_⟩
  rw [(deinit_effects E (run_ops E (set_fast_exit s) ops)).2.2.1, hset]
  rfl

end cryptonote
